import Mathlib

/-!
# CodeNamor/Config: configuration merge, auth-key loading and CA-path resolution

A shallow embedding of the Go package `config` (files `config.go`,
`services.go`, `configbuilder.go`, `fingerprint.go`, `authkeyadapter.go`)
together with theorems about it.

Conventions of the embedding:

* a Go `string` is a Lean `String`, a Go `int` is an `Int`; the only
  arithmetic on them, the conversion of seconds to a `time.Duration`, wraps
  around explicitly at 64 bits;
* a Go pointer that may be `nil` is an `Option`;
* a function that writes through a pointer returns the new pointee next to
  its ordinary results;
* a Go `map[string]*T` is an association list in the order in which the
  `range` loop visits it; the values are the pointees, each entry owning its
  own pointee (this is what `UnmarshalJSON` builds: a fresh copy per entry).
-/

namespace CodeNamor

/-! ## Errors -/

/-- Go `error` values as the package builds them: `errors.New(msg)`,
`&cnErrors.ErrorLog{RootCause: rootCause, Err: err}` and
`cnErrors.WithErrorAndCause(err, cause)`. -/
inductive GoError where
  | new (msg : String)
  | errorLog (rootCause : String) (err : GoError)
  | withErrorAndCause (err : GoError) (cause : String)
  deriving DecidableEq, Repr

/-! ## Data model (`config.go`) -/

/-- The type `configFlag` of `config.go`: `type configFlag int`. -/
abbrev configFlag := Int

namespace configFlag

/-- The constant `UnSet configFlag = iota`, the zero value. -/
def UnSet : configFlag := 0

/-- The constant `False` of `config.go` (value 1). -/
def False : configFlag := 1

/-- The constant `True` of `config.go` (value 2). -/
def True : configFlag := 2

end configFlag

/-- The type `ServiceLoggingConfig` of `config.go`. -/
structure ServiceLoggingConfig where
  LogCallDuration : configFlag := 0
  deriving DecidableEq, Repr

/-- The type `ClientConfig` of `config.go`. -/
structure ClientConfig where
  Timeout : Int := 0
  IdleConnTimeout : Int := 0
  MaxIdleConnsPerHost : Int := 0
  MaxConnsPerHost : Int := 0
  MaxRetries : Int := 0
  DisableCompression : configFlag := 0
  InsecureSkipVerify : configFlag := 0
  CABundlePath : String := ""
  deriving DecidableEq, Repr

/-- The type `ComponentConfigs` of `config.go`. -/
structure ComponentConfigs where
  ServiceLogging : ServiceLoggingConfig := {}
  Client : ClientConfig := {}
  deriving DecidableEq, Repr

/-! ## The two library calls made by `mergeCompConfigs`

`copier.Copy` (github.com/jinzhu/copier) and `mergo.Merge`
(github.com/imdario/mergo) are third-party functions working by reflection.
They are embedded at the one type they are called at, `*ComponentConfigs`. -/

/-- Modelled from the spec: `copier.Copy(toValue, fromValue)` of the library
jinzhu/copier is not part of the repository. For two pointers to the same
struct type it assigns every field of the source to the destination, zero
valued fields included (spec 4.2: "every field of target is first set from
serviceOverride"), and returns no error. The result is the error and the new
pointee of `toValue`. -/
def copierCopy (_toValue fromValue : ComponentConfigs) : Option GoError × ComponentConfigs :=
  (none, fromValue)

/-- The leaf case of mergo's `deepMerge` for a field of kind int (this covers
`configFlag`): the destination is set from the source when the destination is
empty (`== 0`) and the source is not. -/
def deepMergeInt (dst src : Int) : Int :=
  if dst = 0 ∧ ¬ src = 0 then src else dst

/-- The leaf case of mergo's `deepMerge` for a string field: empty means
length zero. -/
def deepMergeString (dst src : String) : String :=
  if dst = "" ∧ ¬ src = "" then src else dst

/-- mergo's `deepMerge` on the struct `ServiceLoggingConfig`: field by field. -/
def deepMergeServiceLogging (dst src : ServiceLoggingConfig) : ServiceLoggingConfig :=
  { LogCallDuration := deepMergeInt dst.LogCallDuration src.LogCallDuration }

/-- mergo's `deepMerge` on the struct `ClientConfig`: field by field. -/
def deepMergeClient (dst src : ClientConfig) : ClientConfig :=
  { Timeout := deepMergeInt dst.Timeout src.Timeout
    IdleConnTimeout := deepMergeInt dst.IdleConnTimeout src.IdleConnTimeout
    MaxIdleConnsPerHost := deepMergeInt dst.MaxIdleConnsPerHost src.MaxIdleConnsPerHost
    MaxConnsPerHost := deepMergeInt dst.MaxConnsPerHost src.MaxConnsPerHost
    MaxRetries := deepMergeInt dst.MaxRetries src.MaxRetries
    DisableCompression := deepMergeInt dst.DisableCompression src.DisableCompression
    InsecureSkipVerify := deepMergeInt dst.InsecureSkipVerify src.InsecureSkipVerify
    CABundlePath := deepMergeString dst.CABundlePath src.CABundlePath }

/-- Modelled from the spec: `mergo.Merge(dst, src)` of the library
imdario/mergo is not part of the repository. Without options it descends into
nested structs and overwrites exactly the fields of the destination that are
at their zero value (spec 4.2: "every field in target that is still at its
zero value is overwritten with the corresponding field from default"); for two
pointers to the same struct type it returns no error. The result is the error
and the new pointee of `dst`. -/
def mergoMerge (dst src : ComponentConfigs) : Option GoError × ComponentConfigs :=
  (none,
    { ServiceLogging := deepMergeServiceLogging dst.ServiceLogging src.ServiceLogging
      Client := deepMergeClient dst.Client src.Client })

/-! ## `mergeCompConfigs` (`configbuilder.go`) -/

/-- The second half of `mergeCompConfigs`: `if defaultCC != nil` merge the
defaults into the target with `mergo.Merge`, then `return nil`. -/
def mergeCompConfigsDefaults (defaultCC : Option ComponentConfigs) (target : ComponentConfigs) :
    Option GoError × Option ComponentConfigs :=
  match defaultCC with
  | some d =>
    match mergoMerge target d with
    | (some err, t) => (some err, some t)
    | (none, t) => (none, some t)
  | none => (none, some target)

/-- The function `mergeCompConfigs(serviceCCO, defaultCC, mergedCC)`. The three
pointers are options; the result is the returned error (`none` for `nil`) and
the pointee of `mergedCC` after the call. -/
def mergeCompConfigs (serviceCCO defaultCC mergedCC : Option ComponentConfigs) :
    Option GoError × Option ComponentConfigs :=
  match mergedCC with
  | none => (some (GoError.new "nil pointer passed for mergedCC"), none)
  | some t =>
    match serviceCCO with
    | some o =>
      match copierCopy t o with
      | (some err, t1) => (some err, some t1)
      | (none, t1) => mergeCompConfigsDefaults defaultCC t1
    | none => mergeCompConfigsDefaults defaultCC t

/-! ## Services and the configuration (`services.go`, `config.go`) -/

/-- The type `AuthCredentials` of `services.go`. -/
structure AuthCredentials where
  KeyComponent1 : String := ""
  KeyComponent2 : String := ""
  Euuid : String := ""
  deriving DecidableEq, Repr

/-- The type `EndpointConfig` of `services.go`. -/
structure EndpointConfig where
  Name : String := ""
  Path : String := ""
  deriving DecidableEq, Repr

/-- The type `EndpointMap` of `services.go`, `map[string]*EndpointConfig`. -/
abbrev EndpointMap := List (String × EndpointConfig)

/-- The type `ServiceConfig` of `services.go`. The interface-valued field `HTTPClient`
is written by `newConfig` only and is not read by any function embedded here;
it is left out of the record. -/
structure ServiceConfig where
  Name : String := ""
  URL : String := ""
  AuthRequired : Bool := false
  AuthEnvironmentVariable : String := ""
  AuthCredentials : AuthCredentials := {}
  AuthKey : String := ""
  EndPoints : EndpointMap := []
  ComponentConfigOverrides : ComponentConfigs := {}
  mergedComponentConfigs : ComponentConfigs := {}
  deriving DecidableEq, Repr

/-- The method `MergedComponentConfigs` of `ServiceConfig`. -/
def ServiceConfig.MergedComponentConfigs (s : ServiceConfig) : ComponentConfigs :=
  s.mergedComponentConfigs

/-- The type `DatabaseConfig` of `services.go`. -/
structure DatabaseConfig where
  Name : String := ""
  Database : String := ""
  Server : String := ""
  Username : String := ""
  Password : String := ""
  AuthRequired : Bool := false
  AuthEnvironmentVariable : String := ""
  deriving DecidableEq, Repr

/-- The type `ServicesMap` of `services.go`, `map[string]*ServiceConfig`: the entries
in the order in which a `range` loop visits them. -/
abbrev ServicesMap := List (String × ServiceConfig)

/-- The type `DatabasesMap` of `services.go`, `map[string]*DatabaseConfig`. -/
abbrev DatabasesMap := List (String × DatabaseConfig)

/-- The keys of a services map are pairwise distinct, as in every Go map. -/
def ServicesMap.NodupKeys (m : ServicesMap) : Prop :=
  (m.map Prod.fst).Nodup

/-- The map read `m[name]`: the entry stored under `name`, if any. -/
def ServicesMap.get? (m : ServicesMap) (name : String) : Option ServiceConfig :=
  match m with
  | [] => none
  | (k, v) :: rest => if k = name then some v else ServicesMap.get? rest name

/-- The type `LoggingConfig` of `config.go`. -/
structure LoggingConfig where
  Level : String := ""
  deriving DecidableEq, Repr

/-- The type `Config` of `config.go`. The free-form `Options` map and the
interface-valued `DefaultHTTPClient` are not read by any function embedded
here and are left out of the record. -/
structure Config where
  Env : String := ""
  Port : Int := 0
  Logging : LoggingConfig := {}
  DefaultComponentConfigs : ComponentConfigs := {}
  ServiceConfigs : ServicesMap := []
  DatabaseConfigs : DatabasesMap := []
  Hash : String := ""
  deriving DecidableEq, Repr

/-- The type `defaultConfigBuilder` of `configbuilder.go`; `config` is the pointee of
the builder's `*Config`, which `Read` sets before any later stage runs. -/
structure defaultConfigBuilder where
  config : Config := {}
  configPath : String := ""
  deriving DecidableEq, Repr

/-- The method `GetConfigPath`. -/
def defaultConfigBuilder.GetConfigPath (b : defaultConfigBuilder) : String :=
  b.configPath

/-! ## `mergeComponentConfigsForAllServices` (`configbuilder.go`) -/

/-- Writing the pointee of `&serviceConfig.mergedComponentConfigs` back into
the service after `mergeCompConfigs` returned. -/
def storeMerged (serviceConfig : ServiceConfig) (mergedCC : Option ComponentConfigs) :
    ServiceConfig :=
  match mergedCC with
  | some m => { serviceConfig with mergedComponentConfigs := m }
  | none => serviceConfig

/-- The `for k, serviceConfig := range c.ServiceConfigs` loop of
`mergeComponentConfigsForAllServices`: it stops at the first error, which is
wrapped with the service name. The result is the returned error and the map
after the loop. -/
def mergeServicesLoop (defaultCompConfigs : ComponentConfigs) :
    ServicesMap → Option GoError × ServicesMap
  | [] => (none, [])
  | (k, serviceConfig) :: rest =>
    match mergeCompConfigs (some serviceConfig.ComponentConfigOverrides)
        (some defaultCompConfigs) (some serviceConfig.mergedComponentConfigs) with
    | (some err, t) =>
      (some (GoError.withErrorAndCause err ("Error merging component config: " ++ k)),
        (k, storeMerged serviceConfig t) :: rest)
    | (none, t) =>
      let r := mergeServicesLoop defaultCompConfigs rest
      (r.1, (k, storeMerged serviceConfig t) :: r.2)

/-- The function `mergeComponentConfigsForAllServices(c)`: the returned error
and the configuration after the call. -/
def mergeComponentConfigsForAllServices (c : Config) : Option GoError × Config :=
  let defaultCompConfigs := c.DefaultComponentConfigs
  let r := mergeServicesLoop defaultCompConfigs c.ServiceConfigs
  (r.1, { c with ServiceConfigs := r.2 })

/-! ## `LoadServiceAuthKeys` (`configbuilder.go`) -/

/-- The interface `AuthKeyGetter` of `authkeygetter.go`. An implementation may
do anything (read the environment, call the network, count its calls), so a
call takes and returns the state `γ` of the getter and its surroundings next to
the Go results `(string, error)`. The type `κ` stands for
`apiclient.RetryClient`. The getter reads the service it is handed. -/
structure AuthKeyGetter (γ κ : Type) where
  GetServiceKey : γ → ServiceConfig → κ → (String × Option GoError) × γ

/-- The body of the `range` loop of `LoadServiceAuthKeys` over the entries in
visiting order: `errs` is the slice of errors so far, `st` the getter state.
The assignment `serviceConfig.AuthKey, err = keyGetter.GetServiceKey(...)`
stores the returned string whatever `err` is. -/
def loadAuthKeysLoop {γ κ : Type} (keyGetter : AuthKeyGetter γ κ) (client : κ) :
    ServicesMap → List GoError → γ → ServicesMap × List GoError × γ
  | [], errs, st => ([], errs, st)
  | (name, serviceConfig) :: rest, errs, st =>
    if serviceConfig.AuthRequired = true then
      let r := keyGetter.GetServiceKey st serviceConfig client
      let serviceConfig1 := { serviceConfig with AuthKey := r.1.1 }
      let errs1 :=
        match r.1.2 with
        | some err =>
          errs ++ [GoError.errorLog ("Error retrieving auth key for " ++ name ++ ":") err]
        | none =>
          if serviceConfig1.AuthKey = "" then
            errs ++ [GoError.new ("Empty auth key for " ++ name)]
          else errs
      let out := loadAuthKeysLoop keyGetter client rest errs1 r.2
      ((name, serviceConfig1) :: out.1, out.2)
    else
      let out := loadAuthKeysLoop keyGetter client rest errs st
      ((name, serviceConfig) :: out.1, out.2)

/-- The method `LoadServiceAuthKeys(keyGetter, client)` of the builder: the
returned `[]error`, the builder afterwards and the final getter state. -/
def LoadServiceAuthKeys {γ κ : Type} (b : defaultConfigBuilder) (keyGetter : AuthKeyGetter γ κ)
    (client : κ) (st : γ) : List GoError × defaultConfigBuilder × γ :=
  let out := loadAuthKeysLoop keyGetter client b.config.ServiceConfigs [] st
  (out.2.1, { b with config := { b.config with ServiceConfigs := out.1 } }, out.2.2)

/-! ## Paths: Go's package `path` and `resolveCAPath` -/

/-- The inner loop of the `..` case of `path.Clean`:
`for out.w > dotdot && out.index(out.w) != '/' { out.w-- }`, started at `w`;
the result is the final `out.w`. -/
def cleanBacktrack (out : List Char) (dotdot : Nat) : Nat → Nat
  | 0 => 0
  | w + 1 =>
    if w + 1 > dotdot ∧ out.get? (w + 1) ≠ some '/' then cleanBacktrack out dotdot w
    else w + 1

/-- The main loop `for r < n` of `path.Clean` from the Go standard library.
`rest` is `path[r:]`, `out` the bytes written so far (`out.w` is its length),
`dotdot` the index where `..` must stop. Every round consumes at least one
byte of `rest`, so the first argument, started at `len(path)`, never runs
out. -/
def cleanLoop (rooted : Bool) : Nat → List Char → List Char → Nat → List Char
  | 0, _, out, _ => out
  | fuel + 1, rest, out, dotdot =>
    match rest with
    | [] => out
    | c :: tl =>
      if c = '/' then
        cleanLoop rooted fuel tl out dotdot
      else if c = '.' ∧ (tl = [] ∨ tl.head? = some '/') then
        cleanLoop rooted fuel tl out dotdot
      else if c = '.' ∧ tl.head? = some '.' ∧ (tl.tail = [] ∨ tl.tail.head? = some '/') then
        if out.length > dotdot then
          let w := cleanBacktrack out dotdot (out.length - 1)
          cleanLoop rooted fuel tl.tail (out.take w) dotdot
        else if rooted = false then
          let out1 := if out.length > 0 then out ++ ['/'] else out
          let out2 := out1 ++ ['.', '.']
          cleanLoop rooted fuel tl.tail out2 out2.length
        else
          cleanLoop rooted fuel tl.tail out dotdot
      else
        let out1 :=
          if (rooted = true ∧ out.length ≠ 1) ∨ (rooted = false ∧ out.length ≠ 0) then
            out ++ ['/']
          else out
        cleanLoop rooted fuel (rest.dropWhile (fun x => x ≠ '/'))
          (out1 ++ rest.takeWhile (fun x => x ≠ '/')) dotdot

/-- The function `path.Clean` of the Go standard library. -/
def pathClean (path : String) : String :=
  if path = "" then "."
  else
    let p := path.data
    let rooted : Bool := p.head? = some '/'
    let out :=
      if rooted then cleanLoop rooted p.length p.tail ['/'] 1
      else cleanLoop rooted p.length p [] 0
    if out.length = 0 then "." else String.mk out

/-- The directory part of `path.Split`: `path[:i+1]` for the last index `i` of
a slash, the empty string when there is none. -/
def pathSplitDir (path : String) : String :=
  String.mk (path.data.reverse.dropWhile (fun x => x ≠ '/')).reverse

/-- The function `path.Dir` of the Go standard library. -/
def pathDir (path : String) : String :=
  pathClean (pathSplitDir path)

/-- The buffer loop of `path.Join`: a separator before every non-first
element that is written. -/
def pathJoinBuf : List Char → List String → List Char
  | buf, [] => buf
  | buf, e :: es =>
    if buf.length > 0 ∨ e ≠ "" then
      pathJoinBuf ((if buf.length > 0 then buf ++ ['/'] else buf) ++ e.data) es
    else pathJoinBuf buf es

/-- The function `path.Join` of the Go standard library. -/
def pathJoin (elem : List String) : String :=
  if (elem.map String.length).sum = 0 then ""
  else pathClean (String.mk (pathJoinBuf [] elem))

/-- Modelled from the spec: `compath.Resolve(base, rel)` of the package
github.com/CodeNamor/Common/path is not part of the repository. Spec 4.3:
"join configFileDir with rawCertPath and normalize", which is `path.Join`. -/
def compathResolve (base rel : String) : String :=
  pathJoin [base, rel]

/-- The function `resolveCAPath(jsonPath, certPath)` of `configbuilder.go`. -/
def resolveCAPath (jsonPath certPath : String) : String :=
  if certPath = "" then ""
  else
    let configDir := pathDir jsonPath
    let resolvedPath := compathResolve configDir certPath
    if resolvedPath = "." then "" else resolvedPath

/-! ## Go maps with string keys -/

/-- The map read `m[k]` on a Go map held as an association list: the value
stored under `k`, if any. -/
def GoMap.get? {α : Type} : List (String × α) → String → Option α
  | [], _ => none
  | (k1, v1) :: rest, k => if k1 = k then some v1 else GoMap.get? rest k

/-- The map write `m[k] = v`: the value under an existing key is replaced, a
new key gets a new entry. -/
def GoMap.set {α : Type} : List (String × α) → String → α → List (String × α)
  | [], k, v => [(k, v)]
  | (k1, v1) :: rest, k, v =>
    if k1 = k then (k, v) :: rest else (k1, v1) :: GoMap.set rest k v

/-! ## `UnmarshalJSON` (`services.go`)

`json.Unmarshal(data, &list)` is the decoder of the standard library; its
outcome, an error or the decoded list, is the argument of the embedded
methods. -/

/-- The method `ServicesMap.UnmarshalJSON`: the map is reset, a decoding error
is returned as it is, otherwise every list entry is copied and stored under
its `Name`. The result is the returned error and the map. -/
def ServicesMap.UnmarshalJSON (decoded : Except GoError (List ServiceConfig)) :
    Option GoError × ServicesMap :=
  match decoded with
  | .error err => (some err, [])
  | .ok services =>
    (none, services.foldl (fun servicesMap service =>
      GoMap.set servicesMap service.Name service) [])

/-- The method `DatabasesMap.UnmarshalJSON`. -/
def DatabasesMap.UnmarshalJSON (decoded : Except GoError (List DatabaseConfig)) :
    Option GoError × DatabasesMap :=
  match decoded with
  | .error err => (some err, [])
  | .ok databases =>
    (none, databases.foldl (fun databasesMap database =>
      GoMap.set databasesMap database.Name database) [])

/-- The method `EndpointMap.UnmarshalJSON`. -/
def EndpointMap.UnmarshalJSON (decoded : Except GoError (List EndpointConfig)) :
    Option GoError × EndpointMap :=
  match decoded with
  | .error err => (some err, [])
  | .ok endpoints =>
    (none, endpoints.foldl (fun endpointMap endpoint =>
      GoMap.set endpointMap endpoint.Name endpoint) [])

/-! ## The content hash (`fingerprint.go`)

The package variable `_hashCode` is the state; its initial value is the empty
string. -/

/-- The function `NewHashCode(hashCode)`: the returned string and the new
value of `_hashCode`. -/
def NewHashCode (_hashCode : String) (hashCode : String) : String × String :=
  let _hashCode1 := if _hashCode = "" then hashCode else _hashCode
  (_hashCode1, _hashCode1)

/-- The function `HashCode()`. -/
def HashCode (_hashCode : String) : String :=
  _hashCode

/-! ## The environment-variable key getter (`authkeyadapter.go`)

The process environment is the function `getenv`, Go's `os.Getenv`: the value
of a variable, the empty string when it is not set. -/

/-- The method `adapterService.getEnvironmentKey(environmentVariable)`. -/
def adapterService.getEnvironmentKey (getenv : String → String) (environmentVariable : String) :
    String × Option GoError :=
  let authKey := getenv environmentVariable
  if authKey = "" then
    ("", some (GoError.new ("Empty auth key for \x27" ++ environmentVariable ++ "\x27")))
  else (authKey, none)

/-- The method `adapterService.GetServiceKey(service, client)`; the client is
not used. -/
def adapterService.GetServiceKey (getenv : String → String) (service : ServiceConfig) :
    String × Option GoError :=
  if service.AuthEnvironmentVariable ≠ "" then
    adapterService.getEnvironmentKey getenv service.AuthEnvironmentVariable
  else ("", none)

/-- The value `adapterService{}` as an `AuthKeyGetter`: it has no state of its
own and reads the environment `getenv`. -/
def adapterService {κ : Type} (getenv : String → String) : AuthKeyGetter Unit κ where
  GetServiceKey := fun st service _ => (adapterService.GetServiceKey getenv service, st)

/-! ## Lookups (`config.go`) -/

/-- The method `Config.GetServiceConfig(name)`: the returned pointer and error. -/
def Config.GetServiceConfig (c : Config) (name : String) :
    Option ServiceConfig × Option GoError :=
  match GoMap.get? c.ServiceConfigs name with
  | some service => (some service, none)
  | none => (none, some (GoError.new ("unable to locate service configuration for " ++ name)))

/-- The method `Config.GetDatabaseConfig(name)` under the environment `getenv`:
the returned pointee (`none` for a nil pointer), the returned error and the
configuration afterwards. The write `database.Password = ...` goes through the
pointer stored in the map, so it is a write to the entry under `name`. -/
def Config.GetDatabaseConfig (c : Config) (getenv : String → String) (name : String) :
    (Option DatabaseConfig × Option GoError) × Config :=
  match GoMap.get? c.DatabaseConfigs name with
  | some database =>
    if database.AuthRequired = true then
      let database1 := { database with Password := getenv database.AuthEnvironmentVariable }
      ((some database1, none),
        { c with DatabaseConfigs := GoMap.set c.DatabaseConfigs name database1 })
    else ((some database, none), c)
  | none =>
    ((none, some (GoError.new ("unable to locate database configuration for " ++ name))), c)

/-! ## Certificate bundles (`configbuilder.go`)

Reading a file and parsing PEM data belong to the standard library
(`ioutil.ReadFile`, `x509.CertPool.AppendCertsFromPEM`); they are the two
fields of `CertEnv`. The type `π` stands for `*x509.CertPool`. Every call of
`ioutil.ReadFile` is recorded: `reads` is the list of the paths read so far. -/

/-- A Go byte slice. -/
abbrev Bytes := List UInt8

/-- The file system and the PEM parser seen by `LoadCertPool`: `ReadFile` is
`ioutil.ReadFile`, `AppendCertsFromPEM` is `x509.NewCertPool()` followed by
`AppendCertsFromPEM(certData)`, `none` when that returns `ok = false`. -/
structure CertEnv (π : Type) where
  ReadFile : String → Except GoError Bytes
  AppendCertsFromPEM : Bytes → Option π

/-- The function `LoadCertPool(caBundlePath)`: the returned pool or error, and
the read log. -/
def LoadCertPool {π : Type} (env : CertEnv π) (caBundlePath : String) (reads : List String) :
    Except GoError π × List String :=
  let reads1 := reads ++ [caBundlePath]
  match env.ReadFile caBundlePath with
  | .error err =>
    (.error (GoError.errorLog ("Error reading cert file " ++ caBundlePath) err), reads1)
  | .ok certData =>
    match env.AppendCertsFromPEM certData with
    | none => (.error (GoError.new "error appending certs from cert file"), reads1)
    | some certPool => (.ok certPool, reads1)

/-- The type `bundleMap` of `configbuilder.go`, `map[string]*x509.CertPool`. -/
abbrev bundleMap (π : Type) := List (String × π)

/-- The function `loadCABundle(bundleMap, cleanedCABundlePath, caBundlePath)`
(the map argument is called `bundles` here): the returned error, the map
afterwards and the read log. -/
def loadCABundle {π : Type} (env : CertEnv π) (bundles : bundleMap π)
    (cleanedCABundlePath caBundlePath : String) (reads : List String) :
    Option GoError × bundleMap π × List String :=
  if caBundlePath = "" then (none, bundles, reads)
  else
    match GoMap.get? bundles caBundlePath with
    | some _ => (none, bundles, reads)
    | none =>
      match LoadCertPool env cleanedCABundlePath reads with
      | (.error err, reads1) => (some err, bundles, reads1)
      | (.ok certPool, reads1) => (none, GoMap.set bundles caBundlePath certPool, reads1)

/-! ## `createHTTPClient` (`configbuilder.go`) -/

/-- The fields of `tls.Config` that `createHTTPClient` sets. -/
structure TLSConfig (π : Type) where
  InsecureSkipVerify : Bool := false
  RootCAs : Option π := none

/-- The fields of `http.Transport` that `createHTTPClient` sets; the duration
is in nanoseconds. -/
structure Transport (π : Type) where
  TLSClientConfig : TLSConfig π := {}
  IdleConnTimeout : Int := 0
  MaxIdleConnsPerHost : Int := 0
  MaxConnsPerHost : Int := 0
  DisableCompression : Bool := false

/-- The fields of `http.Client` that `createHTTPClient` sets; the duration is
in nanoseconds. -/
structure HTTPClient (π : Type) where
  Timeout : Int := 0
  Transport : Transport π := {}

/-- The value of a 64-bit signed integer after wrap-around. -/
def wrapInt64 (x : Int) : Int :=
  (x + 2 ^ 63) % 2 ^ 64 - 2 ^ 63

/-- The expression `time.Duration(n) * time.Second`: an `int64` product. -/
def secondsToDuration (n : Int) : Int :=
  wrapInt64 (wrapInt64 n * 1000000000)

/-- The `baseClient` that `createHTTPClient` builds from the merged client
config and the certificate cache. -/
def createBaseClient {π : Type} (mc : ClientConfig) (mapCertPools : bundleMap π) :
    HTTPClient π :=
  let disableCompression : Bool := if mc.DisableCompression = configFlag.True then true else false
  let tlsConfig : TLSConfig π :=
    if mc.InsecureSkipVerify = configFlag.True then { InsecureSkipVerify := true }
    else
      match GoMap.get? mapCertPools mc.CABundlePath with
      | some certPool => { RootCAs := some certPool }
      | none => {}
  { Timeout := secondsToDuration mc.Timeout
    Transport :=
      { TLSClientConfig := tlsConfig
        IdleConnTimeout := secondsToDuration mc.IdleConnTimeout
        MaxIdleConnsPerHost := mc.MaxIdleConnsPerHost
        MaxConnsPerHost := mc.MaxConnsPerHost
        DisableCompression := disableCompression } }

/-- The function `createHTTPClient(mc, mapCertPools, rbfn)`; `ρ` stands for
`apiclient.RetryClient`, `rbfn` is the `RetryClientBuilderFn`. -/
def createHTTPClient {π ρ : Type} (mc : ClientConfig) (mapCertPools : bundleMap π)
    (rbfn : Int → HTTPClient π → ρ) : ρ :=
  rbfn mc.MaxRetries (createBaseClient mc mapCertPools)

/-! ## `InitClientFn` (`configbuilder.go`) -/

/-- The `range b.config.ServiceConfigs` loop of `InitClientFn`: it stops at the
first bundle that fails to load. -/
def initClientLoop {π : Type} (env : CertEnv π) (configPath : String) :
    ServicesMap → bundleMap π → List String → Option GoError × bundleMap π × List String
  | [], mapCertPools, reads => (none, mapCertPools, reads)
  | (_, serviceConfig) :: rest, mapCertPools, reads =>
    let caBundlePath := serviceConfig.MergedComponentConfigs.Client.CABundlePath
    let cleanedCAPath := resolveCAPath configPath caBundlePath
    match loadCABundle env mapCertPools cleanedCAPath caBundlePath reads with
    | (some err, mapCertPools1, reads1) => (some err, mapCertPools1, reads1)
    | (none, mapCertPools1, reads1) => initClientLoop env configPath rest mapCertPools1 reads1

/-- What `InitClientFn` returns and leaves behind: the returned function (nil
on failure), the returned error, the map `mapCertPools` captured by the
function, and the read log. -/
structure InitClientResult (π ρ : Type) where
  buildClientFn : Option (ClientConfig → ρ)
  err : Option GoError
  mapCertPools : bundleMap π
  reads : List String

/-- The method `InitClientFn(rbfn)` of the builder. -/
def defaultConfigBuilder.InitClientFn {π ρ : Type} (b : defaultConfigBuilder) (env : CertEnv π)
    (rbfn : Int → HTTPClient π → ρ) (reads : List String) : InitClientResult π ρ :=
  let DefaultHTTPClientConfig := b.config.DefaultComponentConfigs.Client
  let mapCertPools : bundleMap π := []
  let defCleanedCAPath := resolveCAPath b.GetConfigPath DefaultHTTPClientConfig.CABundlePath
  match loadCABundle env mapCertPools defCleanedCAPath DefaultHTTPClientConfig.CABundlePath
      reads with
  | (some err, mapCertPools1, reads1) =>
    { buildClientFn := none, err := some err, mapCertPools := mapCertPools1, reads := reads1 }
  | (none, mapCertPools1, reads1) =>
    match initClientLoop env b.GetConfigPath b.config.ServiceConfigs mapCertPools1 reads1 with
    | (some err, mapCertPools2, reads2) =>
      { buildClientFn := none, err := some err, mapCertPools := mapCertPools2, reads := reads2 }
    | (none, mapCertPools2, reads2) =>
      { buildClientFn := some (fun mc => createHTTPClient mc mapCertPools2 rbfn)
        err := none, mapCertPools := mapCertPools2, reads := reads2 }

/-! ## `Load`, `Read` and `newConfig` (`configbuilder.go`, `config.go`)

Opening and reading the config file, the JSON decoder and MD5 belong to the
standard library; they are the fields of `LoadEnv`. -/

/-- An opened file as `Read` sees it: the outcome of `ioutil.ReadAll` on it. -/
abbrev Reader := Except GoError Bytes

/-- The collaborators of `Load` and `Read`: `Open` is `os.Open`, `Decode` is
the strict JSON decoder (`DisallowUnknownFields`) into a `Config`, `Md5Hex` is
`fmt.Sprintf("%x", md5.Sum(bytes))`. -/
structure LoadEnv where
  Open : String → Except GoError Reader
  Decode : Bytes → Except GoError Config
  Md5Hex : Bytes → String

/-- The method `Load(path)`: the returned file or error, and the builder
afterwards. -/
def defaultConfigBuilder.Load (b : defaultConfigBuilder) (env : LoadEnv) (path : String) :
    Except GoError Reader × defaultConfigBuilder :=
  let b1 := { b with configPath := path }
  match env.Open path with
  | .error err => (.error (GoError.errorLog ("Error opening config file " ++ path) err), b1)
  | .ok file => (.ok file, b1)

/-- The function `buildInitialConfig(configData)`. -/
def buildInitialConfig (env : LoadEnv) (configData : Reader) : Except GoError Config :=
  match configData with
  | .error readerError =>
    .error (GoError.withErrorAndCause readerError "Error reading config data")
  | .ok theBytes =>
    match env.Decode theBytes with
    | .error decoderError =>
      .error (GoError.withErrorAndCause decoderError "Error decoding config data")
    | .ok c => .ok { c with Hash := env.Md5Hex theBytes }

/-- The method `Read(configData)`: the returned error, the builder afterwards
and the package variable `_hashCode` afterwards. -/
def defaultConfigBuilder.Read (b : defaultConfigBuilder) (env : LoadEnv) (configData : Reader)
    (_hashCode : String) : Option GoError × defaultConfigBuilder × String :=
  match buildInitialConfig env configData with
  | .error errs => (some errs, b, _hashCode)
  | .ok configuration =>
    match mergeComponentConfigsForAllServices configuration with
    | (some mergeError, _) =>
      (some (GoError.withErrorAndCause mergeError "Error merging component configs"), b,
        _hashCode)
    | (none, configuration1) =>
      (none, { b with config := configuration1 },
        (NewHashCode _hashCode configuration1.Hash).2)

/-- What `newConfig` returns and leaves behind: the returned `*Config` (nil on
failure) and `[]error`, the clients it stored in `DefaultHTTPClient` and in
each service's `HTTPClient` (by service key, in visiting order), the package
variable `_hashCode` and the read log. -/
structure NewConfigResult (ρ : Type) where
  config : Option Config := none
  errs : List GoError := []
  DefaultHTTPClient : Option ρ := none
  HTTPClients : List (String × ρ) := []
  hashCode : String := ""
  reads : List String := []

/-- The function `newConfig(builder, retryClientBuilderFn, configPath)` for the
builder `defaultConfigBuilder`. -/
def newConfig {π ρ : Type} (loadEnv : LoadEnv) (certEnv : CertEnv π)
    (builder : defaultConfigBuilder) (retryClientBuilderFn : Int → HTTPClient π → ρ)
    (configPath : String) (_hashCode : String) : NewConfigResult ρ :=
  match builder.Load loadEnv configPath with
  | (.error err, _) => { config := none, errs := [err], hashCode := _hashCode }
  | (.ok configFile, builder1) =>
    match builder1.Read loadEnv configFile _hashCode with
    | (some err, _, hashCode1) => { config := none, errs := [err], hashCode := hashCode1 }
    | (none, builder2, hashCode1) =>
      let r := builder2.InitClientFn certEnv retryClientBuilderFn []
      match r.err with
      | some err => { config := none, errs := [err], hashCode := hashCode1, reads := r.reads }
      | none =>
        match r.buildClientFn with
        | some buildClientFn =>
          { config := some builder2.config
            errs := []
            DefaultHTTPClient :=
              some (buildClientFn builder2.config.DefaultComponentConfigs.Client)
            HTTPClients := builder2.config.ServiceConfigs.map (fun e =>
              (e.1, buildClientFn e.2.MergedComponentConfigs.Client))
            hashCode := hashCode1
            reads := r.reads }
        | none =>
          -- `InitClientFn` never returns a nil function with a nil error
          { config := none, errs := [], hashCode := hashCode1, reads := r.reads }

/-- The function `New(configPath)`; `newExtendedHTTPClient` stands for
`apiclient.NewExtendedHTTPClient`. -/
def New {π ρ : Type} (loadEnv : LoadEnv) (certEnv : CertEnv π)
    (newExtendedHTTPClient : Int → HTTPClient π → ρ) (configPath : String)
    (_hashCode : String) : NewConfigResult ρ :=
  newConfig loadEnv certEnv {} newExtendedHTTPClient configPath _hashCode

/-! ## Specification-level definitions

These follow the wording of the specification, not the code; the theorems
compare them with the embedded functions. -/

/-- The merge rule of spec 4.2 for one integer or flag field: the override
when it is non-zero, the default otherwise. -/
def specFieldInt (override dflt : Int) : Int :=
  if override ≠ 0 then override else dflt

/-- The merge rule of spec 4.2 for a string field: the override when it is
non-empty, the default otherwise. -/
def specFieldString (override dflt : String) : String :=
  if override ≠ "" then override else dflt

/-- The record `m` is the field-by-field merge of the override `o` and the
default `d`: every leaf field of `m` is the value of `o` when that is non-zero
and the value of `d` otherwise. -/
def SpecMerged (o d m : ComponentConfigs) : Prop :=
  m.ServiceLogging.LogCallDuration =
      specFieldInt o.ServiceLogging.LogCallDuration d.ServiceLogging.LogCallDuration ∧
  m.Client.Timeout = specFieldInt o.Client.Timeout d.Client.Timeout ∧
  m.Client.IdleConnTimeout = specFieldInt o.Client.IdleConnTimeout d.Client.IdleConnTimeout ∧
  m.Client.MaxIdleConnsPerHost =
      specFieldInt o.Client.MaxIdleConnsPerHost d.Client.MaxIdleConnsPerHost ∧
  m.Client.MaxConnsPerHost = specFieldInt o.Client.MaxConnsPerHost d.Client.MaxConnsPerHost ∧
  m.Client.MaxRetries = specFieldInt o.Client.MaxRetries d.Client.MaxRetries ∧
  m.Client.DisableCompression =
      specFieldInt o.Client.DisableCompression d.Client.DisableCompression ∧
  m.Client.InsecureSkipVerify =
      specFieldInt o.Client.InsecureSkipVerify d.Client.InsecureSkipVerify ∧
  m.Client.CABundlePath = specFieldString o.Client.CABundlePath d.Client.CABundlePath

/-- The example of spec 8: default `Client.Timeout` 10, service "ABS"
overriding `Timeout` 30, service "DEF" without override. -/
def exampleTimeoutConfig : Config :=
  { DefaultComponentConfigs := { Client := { Timeout := 10 } }
    ServiceConfigs :=
      [("ABS", { Name := "ABS", ComponentConfigOverrides := { Client := { Timeout := 30 } } }),
       ("DEF", { Name := "DEF" })] }

/-- The answers of the key getter during one run of `LoadServiceAuthKeys`, one
per entry in visiting order: `none` for an entry that is not passed to the
getter, `some (key, err)` for what the call on that entry returned. The getter
state is handed from each call to the next. -/
def specKeyResponses {γ κ : Type} (keyGetter : AuthKeyGetter γ κ) (client : κ) :
    ServicesMap → γ → List (Option (String × Option GoError))
  | [], _ => []
  | (_, serviceConfig) :: rest, st =>
    if serviceConfig.AuthRequired = true then
      some (keyGetter.GetServiceKey st serviceConfig client).1 ::
        specKeyResponses keyGetter client rest (keyGetter.GetServiceKey st serviceConfig client).2
    else none :: specKeyResponses keyGetter client rest st

/-- The error a service named `name` contributes for the answer `resp` of the
getter (spec 4.5): none when it was not asked or got a non-empty key, "Empty
auth key for <name>" for an empty key without error, and "Error retrieving
auth key for <name>:" wrapping the cause when the getter failed. -/
def specAuthError (name : String) (resp : Option (String × Option GoError)) : Option GoError :=
  match resp with
  | none => none
  | some (key, none) =>
    if key = "" then some (GoError.new ("Empty auth key for " ++ name)) else none
  | some (_, some cause) =>
    some (GoError.errorLog ("Error retrieving auth key for " ++ name ++ ":") cause)

/-- The entry after the run, given the answer of the getter: unchanged when
the getter was not asked, otherwise with the returned string as `AuthKey`. -/
def specServiceAfter (entry : String × ServiceConfig)
    (resp : Option (String × Option GoError)) : String × ServiceConfig :=
  match resp with
  | none => entry
  | some (key, _) => (entry.1, { entry.2 with AuthKey := key })

/-- The mock getter of `TestDefaultConfigBuilder_LoadServiceAuthKeys`: key
"123" for TEST_SERVICE_1, an error for TEST_SERVICE_2, an empty key for
TEST_SERVICE_3 and key "456" for every other service. -/
def exampleMockGetter : AuthKeyGetter Unit Unit where
  GetServiceKey := fun st service _ =>
    if service.Name = "TEST_SERVICE_1" then (("123", none), st)
    else if service.Name = "TEST_SERVICE_2" then
      (("", some (GoError.new "This is a mock error")), st)
    else if service.Name = "TEST_SERVICE_3" then (("", none), st)
    else (("456", none), st)

/-- The builder of the last case of
`TestDefaultConfigBuilder_LoadServiceAuthKeys`: four services requiring auth. -/
def exampleFourServices : defaultConfigBuilder :=
  { config :=
      { ServiceConfigs :=
          [("TEST_SERVICE_1", { Name := "TEST_SERVICE_1", AuthRequired := true }),
           ("TEST_SERVICE_2", { Name := "TEST_SERVICE_2", AuthRequired := true }),
           ("TEST_SERVICE_3", { Name := "TEST_SERVICE_3", AuthRequired := true }),
           ("TEST_SERVICE_4", { Name := "TEST_SERVICE_4", AuthRequired := true })] } }

/-- A key getter that fails and returns a non-empty string next to its
error. -/
def examplePartialGetter : AuthKeyGetter Unit Unit where
  GetServiceKey := fun st _ _ => (("partial", some (GoError.new "connection lost")), st)

/-- A builder with the single service "A", which requires auth. -/
def exampleOneService : defaultConfigBuilder :=
  { config := { ServiceConfigs := [("A", { Name := "A", AuthRequired := true })] } }

/-- The two databases of the test configuration (`TestDefaultConfigBuilder_Read`). -/
def exampleDatabases : Config :=
  { DatabaseConfigs :=
      [("MDBAuth", { Name := "MDBAuth", Database := "MyDatabaseAuth", Server := "MyServer:1433",
                     Username := "MyUser", AuthRequired := true,
                     AuthEnvironmentVariable := "CRM_DB_PW" }),
       ("MDBNoAuth", { Name := "MDBNoAuth", Database := "MyDatabaseNoAuth",
                       Server := "MyServer:1433", Username := "MyUser", AuthRequired := false,
                       AuthEnvironmentVariable := "CRM_DB_PW" })] }

/-- An environment in which `CRM_DB_PW` is "pw1" and nothing else is set. -/
def exampleGetenv : String → String :=
  fun v => if v = "CRM_DB_PW" then "pw1" else ""

/-- An environment in which no variable is set. -/
def exampleUnsetEnvironment : String → String :=
  fun _ => ""

/-- A file system holding the one bundle "foo/cabundle.pem"; PEM data parses
when it is not empty, and the pool is represented by the data it was read
from. -/
def exampleCertEnv : CertEnv Bytes where
  ReadFile := fun path =>
    if path = "foo/cabundle.pem" then .ok [45, 45, 45]
    else .error (GoError.new ("open " ++ path ++ ": no such file or directory"))
  AppendCertsFromPEM := fun data => if data = [] then none else some data

/-- A file system without any file. -/
def exampleNoFiles : CertEnv Bytes where
  ReadFile := fun path =>
    .error (GoError.new ("open " ++ path ++ ": no such file or directory"))
  AppendCertsFromPEM := fun data => if data = [] then none else some data

/-- A builder whose config file is "foo/bar.json" and whose default client
names the bundle path "..", which resolves to the directory of the config
file's parent, that is to ".". -/
def exampleDotDotBuilder : defaultConfigBuilder :=
  { configPath := "foo/bar.json"
    config := { DefaultComponentConfigs := { Client := { CABundlePath := ".." } } } }

/-- A decoded configuration: default `Timeout` 10 and bundle "cabundle.pem",
and the service "ABS", which requires auth and has no key in the file. -/
def exampleDecodedConfig : Config :=
  { Env := "UnitTest"
    DefaultComponentConfigs := { Client := { Timeout := 10, CABundlePath := "cabundle.pem" } }
    ServiceConfigs :=
      [("ABS", { Name := "ABS", AuthRequired := true,
                 ComponentConfigOverrides := { Client := { Timeout := 30 } } })] }

/-- A world in which "foo/bar.json" can be opened and decodes to
`exampleDecodedConfig`. -/
def exampleLoadEnv : LoadEnv where
  Open := fun path =>
    if path = "foo/bar.json" then .ok (.ok [123, 125])
    else .error (GoError.new ("open " ++ path ++ ": no such file or directory"))
  Decode := fun _ => .ok exampleDecodedConfig
  Md5Hex := fun _ => "b205d0e616926c8ede91e6c54377b857"

/-- A builder after `Read`: config file "foo/bar.json", default bundle path
"cabundle.pem". -/
def exampleBundleBuilder : defaultConfigBuilder :=
  { configPath := "foo/bar.json"
    config := { DefaultComponentConfigs := { Client := { CABundlePath := "cabundle.pem" } } } }

/-! # Theorems -/

/-! ## Helper lemmas on the merge -/

theorem deepMergeInt_of_ne_zero {dst : Int} (src : Int) (h : dst ≠ 0) :
    deepMergeInt dst src = dst := by
  simp [deepMergeInt, h]

theorem deepMergeInt_zero (src : Int) : deepMergeInt 0 src = src := by
  by_cases h : src = 0 <;> simp [deepMergeInt, h]

theorem deepMergeString_of_ne_empty {dst : String} (src : String) (h : dst ≠ "") :
    deepMergeString dst src = dst := by
  simp [deepMergeString, h]

theorem deepMergeString_empty (src : String) : deepMergeString "" src = src := by
  by_cases h : src = "" <;> simp [deepMergeString, h]

theorem deepMergeInt_eq_ite (dst src : Int) :
    deepMergeInt dst src = if dst ≠ 0 then dst else src := by
  by_cases h : dst = 0
  · subst h; simp [deepMergeInt_zero]
  · simp [deepMergeInt_of_ne_zero src h, h]

theorem deepMergeString_eq_ite (dst src : String) :
    deepMergeString dst src = if dst ≠ "" then dst else src := by
  by_cases h : dst = ""
  · subst h; simp [deepMergeString_empty]
  · simp [deepMergeString_of_ne_empty src h, h]

theorem mergeCompConfigs_some_some_some (o d t : ComponentConfigs) :
    mergeCompConfigs (some o) (some d) (some t) =
      (none, some
        { ServiceLogging := deepMergeServiceLogging o.ServiceLogging d.ServiceLogging
          Client := deepMergeClient o.Client d.Client }) := rfl

theorem mergeCompConfigs_none_some_some (d t : ComponentConfigs) :
    mergeCompConfigs none (some d) (some t) =
      (none, some
        { ServiceLogging := deepMergeServiceLogging t.ServiceLogging d.ServiceLogging
          Client := deepMergeClient t.Client d.Client }) := rfl

/-! ## Claims on `mergeCompConfigs` -/

/-- C1: for every override `o`, default `d` and non-nil target `t`,
`mergeCompConfigs(&o, &d, &t)` returns nil and every leaf field of `o` that is
non-zero (an integer not 0, a flag not `UnSet`, a non-empty `CABundlePath`) has
exactly the value of `o` in the target afterwards, whatever `d` and the old
target hold. -/
theorem mergeCompConfigs_override_kept (o d t : ComponentConfigs) :
    ∃ t1, mergeCompConfigs (some o) (some d) (some t) = (none, some t1) ∧
      (o.ServiceLogging.LogCallDuration ≠ configFlag.UnSet →
        t1.ServiceLogging.LogCallDuration = o.ServiceLogging.LogCallDuration) ∧
      (o.Client.Timeout ≠ 0 → t1.Client.Timeout = o.Client.Timeout) ∧
      (o.Client.IdleConnTimeout ≠ 0 → t1.Client.IdleConnTimeout = o.Client.IdleConnTimeout) ∧
      (o.Client.MaxIdleConnsPerHost ≠ 0 →
        t1.Client.MaxIdleConnsPerHost = o.Client.MaxIdleConnsPerHost) ∧
      (o.Client.MaxConnsPerHost ≠ 0 → t1.Client.MaxConnsPerHost = o.Client.MaxConnsPerHost) ∧
      (o.Client.MaxRetries ≠ 0 → t1.Client.MaxRetries = o.Client.MaxRetries) ∧
      (o.Client.DisableCompression ≠ configFlag.UnSet →
        t1.Client.DisableCompression = o.Client.DisableCompression) ∧
      (o.Client.InsecureSkipVerify ≠ configFlag.UnSet →
        t1.Client.InsecureSkipVerify = o.Client.InsecureSkipVerify) ∧
      (o.Client.CABundlePath ≠ "" → t1.Client.CABundlePath = o.Client.CABundlePath) := by
  refine ⟨_, mergeCompConfigs_some_some_some o d t, ?_, ?_, ?_, ?_, ?_, ?_, ?_, ?_, ?_⟩ <;>
    intro h
  · exact deepMergeInt_of_ne_zero _ h
  · exact deepMergeInt_of_ne_zero _ h
  · exact deepMergeInt_of_ne_zero _ h
  · exact deepMergeInt_of_ne_zero _ h
  · exact deepMergeInt_of_ne_zero _ h
  · exact deepMergeInt_of_ne_zero _ h
  · exact deepMergeInt_of_ne_zero _ h
  · exact deepMergeInt_of_ne_zero _ h
  · exact deepMergeString_of_ne_empty _ h

/-- Witness of C1: the override sets `Timeout` 99 and an explicit `False` for
`DisableCompression`; both survive a default of 10 and `True` and a target
that held 7 and `True`. -/
theorem mergeCompConfigs_override_kept_witness :
    ∃ t1,
      mergeCompConfigs
          (some { Client := { Timeout := 99, DisableCompression := configFlag.False } })
          (some { Client := { Timeout := 10, DisableCompression := configFlag.True } })
          (some { Client := { Timeout := 7, DisableCompression := configFlag.True } })
        = (none, some t1) ∧
      t1.Client.Timeout = 99 ∧ t1.Client.DisableCompression = configFlag.False := by
  obtain ⟨t1, h, -, hT, -, -, -, -, hD, -, -⟩ :=
    mergeCompConfigs_override_kept
      { Client := { Timeout := 99, DisableCompression := configFlag.False } }
      { Client := { Timeout := 10, DisableCompression := configFlag.True } }
      { Client := { Timeout := 7, DisableCompression := configFlag.True } }
  exact ⟨t1, h, hT (by decide), hD (by decide)⟩

/-- C2: for every override `o`, default `d` and non-nil target `t`,
`mergeCompConfigs(&o, &d, &t)` returns nil and every leaf field that is at its
zero value in `o` (0, `UnSet`, the empty string) holds the value of `d` in the
target afterwards: a zero in the override is replaced by the default. -/
theorem mergeCompConfigs_zero_takes_default (o d t : ComponentConfigs) :
    ∃ t1, mergeCompConfigs (some o) (some d) (some t) = (none, some t1) ∧
      (o.ServiceLogging.LogCallDuration = configFlag.UnSet →
        t1.ServiceLogging.LogCallDuration = d.ServiceLogging.LogCallDuration) ∧
      (o.Client.Timeout = 0 → t1.Client.Timeout = d.Client.Timeout) ∧
      (o.Client.IdleConnTimeout = 0 → t1.Client.IdleConnTimeout = d.Client.IdleConnTimeout) ∧
      (o.Client.MaxIdleConnsPerHost = 0 →
        t1.Client.MaxIdleConnsPerHost = d.Client.MaxIdleConnsPerHost) ∧
      (o.Client.MaxConnsPerHost = 0 → t1.Client.MaxConnsPerHost = d.Client.MaxConnsPerHost) ∧
      (o.Client.MaxRetries = 0 → t1.Client.MaxRetries = d.Client.MaxRetries) ∧
      (o.Client.DisableCompression = configFlag.UnSet →
        t1.Client.DisableCompression = d.Client.DisableCompression) ∧
      (o.Client.InsecureSkipVerify = configFlag.UnSet →
        t1.Client.InsecureSkipVerify = d.Client.InsecureSkipVerify) ∧
      (o.Client.CABundlePath = "" → t1.Client.CABundlePath = d.Client.CABundlePath) := by
  refine ⟨_, mergeCompConfigs_some_some_some o d t, ?_, ?_, ?_, ?_, ?_, ?_, ?_, ?_, ?_⟩ <;>
    intro h
  · show deepMergeInt _ _ = _
    rw [h]; exact deepMergeInt_zero _
  · show deepMergeInt _ _ = _
    rw [h]; exact deepMergeInt_zero _
  · show deepMergeInt _ _ = _
    rw [h]; exact deepMergeInt_zero _
  · show deepMergeInt _ _ = _
    rw [h]; exact deepMergeInt_zero _
  · show deepMergeInt _ _ = _
    rw [h]; exact deepMergeInt_zero _
  · show deepMergeInt _ _ = _
    rw [h]; exact deepMergeInt_zero _
  · show deepMergeInt _ _ = _
    rw [h]; exact deepMergeInt_zero _
  · show deepMergeInt _ _ = _
    rw [h]; exact deepMergeInt_zero _
  · show deepMergeString _ _ = _
    rw [h]; exact deepMergeString_empty _

/-- Witness of C2: an override that writes `MaxRetries` 0 and leaves
`CABundlePath` out gets the default 2 and "example_cabundle.pem". -/
theorem mergeCompConfigs_zero_takes_default_witness :
    ∃ t1,
      mergeCompConfigs
          (some { Client := { Timeout := 99, MaxRetries := 0 } })
          (some { Client := { Timeout := 10, MaxRetries := 2,
                              CABundlePath := "example_cabundle.pem" } })
          (some {})
        = (none, some t1) ∧
      t1.Client.MaxRetries = 2 ∧ t1.Client.CABundlePath = "example_cabundle.pem" := by
  obtain ⟨t1, h, -, -, -, -, -, hR, -, -, hP⟩ :=
    mergeCompConfigs_zero_takes_default
      { Client := { Timeout := 99, MaxRetries := 0 } }
      { Client := { Timeout := 10, MaxRetries := 2, CABundlePath := "example_cabundle.pem" } }
      {}
  exact ⟨t1, h, hR (by decide), hP (by decide)⟩

/-- Counterexample to C3 as stated: with a nil override, default `Timeout` 10
and a target that already holds `Timeout` 5, the call returns nil and the
target keeps 5; it does not become equal to the default. -/
theorem mergeCompConfigs_nil_override_counterexample :
    mergeCompConfigs none (some { Client := { Timeout := 10 } })
        (some { Client := { Timeout := 5 } })
      = (none, some { Client := { Timeout := 5 } }) ∧
    ({ Client := { Timeout := 5 } } : ComponentConfigs) ≠ { Client := { Timeout := 10 } } := by
  decide

/-- C3 (amended): for every default `d` and non-nil target `t`,
`mergeCompConfigs(nil, &d, &t)` returns nil; afterwards every leaf field of the
target that was non-zero before the call keeps its value and every field that
was zero holds the value of `d`. Hence a target that is all-zero before the
call ends equal to `d`. -/
theorem mergeCompConfigs_nil_override (d t : ComponentConfigs) :
    ∃ t1, mergeCompConfigs none (some d) (some t) = (none, some t1) ∧
      SpecMerged t d t1 ∧ (t = {} → t1 = d) := by
  refine ⟨_, mergeCompConfigs_none_some_some d t, ?_, ?_⟩
  · simp only [SpecMerged, specFieldInt, specFieldString, deepMergeServiceLogging,
      deepMergeClient, deepMergeInt_eq_ite, deepMergeString_eq_ite, and_self]
  · intro h
    subst h
    obtain ⟨⟨l⟩, ⟨a, b, c, e, f, g, h, i⟩⟩ := d
    simp only [deepMergeServiceLogging, deepMergeClient, deepMergeInt_zero,
      deepMergeString_empty]

/-- Witness of C3 (amended): a zero-valued target takes the whole default. -/
theorem mergeCompConfigs_nil_override_witness :
    ∃ t1,
      mergeCompConfigs none (some { ServiceLogging := { LogCallDuration := 2 } }) (some {})
        = (none, some t1) ∧
      t1 = { ServiceLogging := { LogCallDuration := 2 } } := by
  obtain ⟨t1, h, -, hz⟩ :=
    mergeCompConfigs_nil_override { ServiceLogging := { LogCallDuration := 2 } } {}
  exact ⟨t1, h, hz rfl⟩

/-- C4: for every override `o` and non-nil target `t`,
`mergeCompConfigs(&o, nil, &t)` returns nil and leaves the target equal to `o`
in every field, whatever the target held before. -/
theorem mergeCompConfigs_nil_default (o t : ComponentConfigs) :
    mergeCompConfigs (some o) none (some t) = (none, some o) := by
  rfl

/-- Counterexample to C5 as stated: with a nil override, a nil default and a
non-nil target the call returns nil, not an error. -/
theorem mergeCompConfigs_both_nil_counterexample :
    (mergeCompConfigs none none (some {})).1 = none := by
  decide

/-- C5 (amended): for every target pointer, `mergeCompConfigs` with a nil
override and a nil default leaves the target unchanged; it returns an error
exactly when the target pointer itself is nil (the error is "nil pointer
passed for mergedCC") and nil otherwise. -/
theorem mergeCompConfigs_both_nil (mergedCC : Option ComponentConfigs) :
    (mergeCompConfigs none none mergedCC).2 = mergedCC ∧
    ((mergeCompConfigs none none mergedCC).1 ≠ none ↔ mergedCC = none) ∧
    (mergedCC = none →
      (mergeCompConfigs none none mergedCC).1 =
        some (GoError.new "nil pointer passed for mergedCC")) := by
  cases mergedCC with
  | none => simp [mergeCompConfigs]
  | some t => simp [mergeCompConfigs, mergeCompConfigsDefaults]

/-- Witness of C5 (amended): the all-nil call of the test returns the error
and the target stays nil. -/
theorem mergeCompConfigs_both_nil_witness :
    (mergeCompConfigs none none none).2 = none ∧
    (mergeCompConfigs none none none).1 =
      some (GoError.new "nil pointer passed for mergedCC") :=
  ⟨(mergeCompConfigs_both_nil none).1, (mergeCompConfigs_both_nil none).2.2 rfl⟩

/-! ## `mergeComponentConfigsForAllServices` -/

theorem mergeServicesLoop_eq (d : ComponentConfigs) (m : ServicesMap) :
    mergeServicesLoop d m =
      (none, m.map (fun e =>
        (e.1, { e.2 with
          mergedComponentConfigs :=
            { ServiceLogging :=
                deepMergeServiceLogging e.2.ComponentConfigOverrides.ServiceLogging
                  d.ServiceLogging
              Client := deepMergeClient e.2.ComponentConfigOverrides.Client d.Client } }))) := by
  induction m with
  | nil => rfl
  | cons e rest ih =>
    obtain ⟨k, sc⟩ := e
    simp only [mergeServicesLoop, mergeCompConfigs_some_some_some, storeMerged, ih, List.map_cons]

theorem specMerged_deepMerge (o d : ComponentConfigs) :
    SpecMerged o d
      { ServiceLogging := deepMergeServiceLogging o.ServiceLogging d.ServiceLogging
        Client := deepMergeClient o.Client d.Client } := by
  simp only [SpecMerged, specFieldInt, specFieldString, deepMergeServiceLogging,
    deepMergeClient, deepMergeInt_eq_ite, deepMergeString_eq_ite, and_self]

/-- C6: for every configuration, `mergeComponentConfigsForAllServices` returns
nil; the services map keeps its keys and visiting order, every service's
merged component config is, field by field, the service's override where that
is non-zero and the `DefaultComponentConfigs` value otherwise, and nothing else
changes (in particular `DefaultComponentConfigs` and every
`ComponentConfigOverrides`). In the example with default `Timeout` 10, the
service overriding 30 gets 30 and the service without override gets 10. -/
theorem mergeComponentConfigsForAllServices_merges (c : Config) :
    (mergeComponentConfigsForAllServices c).1 = none ∧
    (mergeComponentConfigsForAllServices c).2 =
      { c with ServiceConfigs := (mergeComponentConfigsForAllServices c).2.ServiceConfigs } ∧
    (mergeComponentConfigsForAllServices c).2.DefaultComponentConfigs
      = c.DefaultComponentConfigs ∧
    List.Forall₂
      (fun (before after : String × ServiceConfig) =>
        after.1 = before.1 ∧
        after.2 =
          { before.2 with mergedComponentConfigs := after.2.MergedComponentConfigs } ∧
        after.2.ComponentConfigOverrides = before.2.ComponentConfigOverrides ∧
        SpecMerged before.2.ComponentConfigOverrides c.DefaultComponentConfigs
          after.2.MergedComponentConfigs)
      c.ServiceConfigs (mergeComponentConfigsForAllServices c).2.ServiceConfigs ∧
    (((mergeComponentConfigsForAllServices exampleTimeoutConfig).2.ServiceConfigs.get?
        "ABS").map (fun s => s.MergedComponentConfigs.Client.Timeout) = some 30 ∧
     ((mergeComponentConfigsForAllServices exampleTimeoutConfig).2.ServiceConfigs.get?
        "DEF").map (fun s => s.MergedComponentConfigs.Client.Timeout) = some 10) := by
  refine ⟨?_, ?_, ?_, ?_, by decide⟩
  · simp [mergeComponentConfigsForAllServices, mergeServicesLoop_eq]
  · rfl
  · rfl
  · simp only [mergeComponentConfigsForAllServices, mergeServicesLoop_eq]
    generalize c.ServiceConfigs = m
    induction m with
    | nil => exact List.Forall₂.nil
    | cons e rest ih =>
      refine List.Forall₂.cons ⟨rfl, rfl, rfl, ?_⟩ ih
      exact specMerged_deepMerge _ _

/-! ## `LoadServiceAuthKeys` -/

theorem loadAuthKeysLoop_eq {γ κ : Type} (keyGetter : AuthKeyGetter γ κ) (client : κ)
    (m : ServicesMap) : ∀ (errs : List GoError) (st : γ),
    (loadAuthKeysLoop keyGetter client m errs st).1 =
        List.zipWith specServiceAfter m (specKeyResponses keyGetter client m st) ∧
    (loadAuthKeysLoop keyGetter client m errs st).2.1 =
        errs ++ (List.zip m (specKeyResponses keyGetter client m st)).filterMap
          (fun p => specAuthError p.1.1 p.2) := by
  induction m with
  | nil => intro errs st; simp [loadAuthKeysLoop, specKeyResponses]
  | cons e rest ih =>
    intro errs st
    obtain ⟨name, sc⟩ := e
    by_cases h : sc.AuthRequired = true
    · simp only [loadAuthKeysLoop, specKeyResponses, h, if_true, List.zipWith_cons_cons,
        List.zip_cons_cons, List.filterMap_cons]
      rcases hr : keyGetter.GetServiceKey st sc client with ⟨⟨key, err⟩, st1⟩
      cases err with
      | none =>
        by_cases hk : key = ""
        · simp [ih, specServiceAfter, specAuthError, hk, h]
        · simp [ih, specServiceAfter, specAuthError, hk, h]
      | some cause => simp [ih, specServiceAfter, specAuthError, h]
    · simp [loadAuthKeysLoop, specKeyResponses, h, ih, specServiceAfter, specAuthError]

theorem specKeyResponses_getElem? {γ κ : Type} (keyGetter : AuthKeyGetter γ κ) (client : κ)
    (m : ServicesMap) : ∀ (st : γ) (i : Nat) (name : String) (sc : ServiceConfig),
    m[i]? = some (name, sc) →
      (sc.AuthRequired = false → (specKeyResponses keyGetter client m st)[i]? = some none) ∧
      (sc.AuthRequired = true →
        ∃ key err, (specKeyResponses keyGetter client m st)[i]? = some (some (key, err))) := by
  induction m with
  | nil => intro st i name sc h; simp at h
  | cons e rest ih =>
    intro st i name sc hi
    obtain ⟨k, s0⟩ := e
    cases i with
    | zero =>
      simp only [List.getElem?_cons_zero, Option.some.injEq, Prod.mk.injEq] at hi
      obtain ⟨rfl, rfl⟩ := hi
      constructor
      · intro h; simp [specKeyResponses, h]
      · intro h
        exact ⟨(keyGetter.GetServiceKey st s0 client).1.1,
          (keyGetter.GetServiceKey st s0 client).1.2, by simp [specKeyResponses, h]⟩
    | succ j =>
      simp only [List.getElem?_cons_succ] at hi
      by_cases h : s0.AuthRequired = true
      · simpa [specKeyResponses, h] using ih _ j name sc hi
      · simpa [specKeyResponses, h] using ih _ j name sc hi

/-- Counterexample to C8 as stated: the getter returns the string "partial"
together with an error for the auth-required service "A"; after the run the
service holds `AuthKey = "partial"`, which is not empty. -/
theorem LoadServiceAuthKeys_error_key_counterexample :
    (examplePartialGetter.GetServiceKey () { Name := "A", AuthRequired := true } ()).1.2
      = some (GoError.new "connection lost") ∧
    ((LoadServiceAuthKeys exampleOneService examplePartialGetter () ()).2.1.config.ServiceConfigs.get?
        "A").map (fun s => s.AuthKey) = some "partial" ∧
    "partial" ≠ "" := by
  decide

/-- C8 (amended): for every services map and key getter, an entry for which
the getter call returned an error is an auth-required entry and ends with the
string the getter returned next to the error as its `AuthKey`; so its
`AuthKey` is empty whenever the getter returns the empty string with its
error. -/
theorem LoadServiceAuthKeys_error_key {γ κ : Type} (b : defaultConfigBuilder)
    (keyGetter : AuthKeyGetter γ κ) (client : κ) (st : γ) (i : Nat) (name : String)
    (sc : ServiceConfig) (key : String) (cause : GoError)
    (hentry : b.config.ServiceConfigs[i]? = some (name, sc))
    (hresp : (specKeyResponses keyGetter client b.config.ServiceConfigs st)[i]?
      = some (some (key, some cause))) :
    sc.AuthRequired = true ∧
    (LoadServiceAuthKeys b keyGetter client st).2.1.config.ServiceConfigs[i]?
      = some (name, { sc with AuthKey := key }) ∧
    (key = "" →
      (LoadServiceAuthKeys b keyGetter client st).2.1.config.ServiceConfigs[i]?
        = some (name, { sc with AuthKey := "" })) := by
  have hserv : (LoadServiceAuthKeys b keyGetter client st).2.1.config.ServiceConfigs =
      List.zipWith specServiceAfter b.config.ServiceConfigs
        (specKeyResponses keyGetter client b.config.ServiceConfigs st) :=
    (loadAuthKeysLoop_eq keyGetter client b.config.ServiceConfigs [] st).1
  have hreq : sc.AuthRequired = true := by
    cases hb : sc.AuthRequired with
    | true => rfl
    | false =>
      have := (specKeyResponses_getElem? keyGetter client b.config.ServiceConfigs st i name sc
        hentry).1 hb
      rw [hresp] at this
      simp at this
  have hafter : (LoadServiceAuthKeys b keyGetter client st).2.1.config.ServiceConfigs[i]?
      = some (name, { sc with AuthKey := key }) := by
    rw [hserv, List.getElem?_zipWith, hentry, hresp]
    rfl
  refine ⟨hreq, hafter, ?_⟩
  intro hk
  rw [hafter, hk]

/-- Witness of C8 (amended): TEST_SERVICE_2 of the test, whose getter call
returns the empty string with "This is a mock error", ends with an empty
`AuthKey`. -/
theorem LoadServiceAuthKeys_error_key_witness :
    (LoadServiceAuthKeys exampleFourServices exampleMockGetter () ()).2.1.config.ServiceConfigs[1]?
      = some ("TEST_SERVICE_2", { Name := "TEST_SERVICE_2", AuthRequired := true, AuthKey := "" }) :=
  (LoadServiceAuthKeys_error_key exampleFourServices exampleMockGetter () () 1 "TEST_SERVICE_2"
    { Name := "TEST_SERVICE_2", AuthRequired := true } "" (GoError.new "This is a mock error")
    rfl (by decide)).2.2 rfl

/-! ### Order independence -/

theorem zipWith_map_self {α β δ : Type} (F : α → β → δ) (h : α → β) (m : List α) :
    List.zipWith F m (m.map h) = m.map (fun e => F e (h e)) := by
  induction m with
  | nil => rfl
  | cons e rest ih => simp [ih]

theorem filterMap_zip_map_self {α β δ : Type} (G : α × β → Option δ) (h : α → β) (m : List α) :
    (List.zip m (m.map h)).filterMap G = m.filterMap (fun e => G (e, h e)) := by
  induction m with
  | nil => rfl
  | cons e rest ih => simp [List.filterMap_cons, ih]

theorem specKeyResponses_of_pure {γ κ : Type} (keyGetter : AuthKeyGetter γ κ) (client : κ)
    (f : ServiceConfig → String × Option GoError)
    (hf : ∀ st sc, (keyGetter.GetServiceKey st sc client).1 = f sc) (m : ServicesMap) :
    ∀ st : γ, specKeyResponses keyGetter client m st =
      m.map (fun e => if e.2.AuthRequired = true then some (f e.2) else none) := by
  induction m with
  | nil => intro st; rfl
  | cons e rest ih =>
    intro st
    obtain ⟨name, sc⟩ := e
    by_cases h : sc.AuthRequired = true <;> simp [specKeyResponses, h, ih, hf]

theorem specServiceAfter_fst (e : String × ServiceConfig)
    (resp : Option (String × Option GoError)) : (specServiceAfter e resp).1 = e.1 := by
  cases resp with
  | none => rfl
  | some r => rfl

theorem ServicesMap.get?_perm {m1 m2 : ServicesMap} (hperm : m1.Perm m2) :
    m1.NodupKeys → ∀ name, m1.get? name = m2.get? name := by
  induction hperm with
  | nil => intro _ _; rfl
  | cons x _ ih =>
    intro hnd name
    obtain ⟨k, v⟩ := x
    have hnd2 : ServicesMap.NodupKeys _ := (List.nodup_cons.mp hnd).2
    simp only [ServicesMap.get?]
    split
    · rfl
    · exact ih hnd2 name
  | swap x y l =>
    intro hnd name
    obtain ⟨kx, vx⟩ := x
    obtain ⟨ky, vy⟩ := y
    have hne : ky ≠ kx := by
      have hmem : ky ∉ kx :: l.map Prod.fst := (List.nodup_cons.mp hnd).1
      intro h
      exact hmem (by simp [h])
    simp only [ServicesMap.get?]
    by_cases h1 : ky = name
    · have h2 : ¬ kx = name := fun h => hne (h1.trans h.symm)
      simp [h1, h2]
    · by_cases h2 : kx = name <;> simp [h1, h2]
  | trans h12 _ ih1 ih2 =>
    intro hnd name
    have hnd2 : ServicesMap.NodupKeys _ := ((h12.map Prod.fst).nodup_iff).mp hnd
    exact (ih1 hnd name).trans (ih2 hnd2 name)

/-- C9: `LoadServiceAuthKeys` does not depend on the order in which the
services map is visited. For every services map (keys pairwise distinct),
every second visiting order of the same entries and every key getter whose
answer for a service depends only on that service, the two runs leave the
same entry (so the same `AuthKey`) under every name, the resulting maps are
permutations of each other, and the two returned error lists are permutations
of each other. -/
theorem LoadServiceAuthKeys_order_independent {γ κ : Type} (b : defaultConfigBuilder)
    (order2 : ServicesMap) (keyGetter : AuthKeyGetter γ κ) (client : κ)
    (f : ServiceConfig → String × Option GoError)
    (hpure : ∀ st sc, (keyGetter.GetServiceKey st sc client).1 = f sc)
    (hperm : b.config.ServiceConfigs.Perm order2)
    (hnodup : b.config.ServiceConfigs.NodupKeys) (st1 st2 : γ) :
    (∀ name,
      (LoadServiceAuthKeys b keyGetter client st1).2.1.config.ServiceConfigs.get? name =
      (LoadServiceAuthKeys { b with config := { b.config with ServiceConfigs := order2 } }
        keyGetter client st2).2.1.config.ServiceConfigs.get? name) ∧
    ((LoadServiceAuthKeys b keyGetter client st1).2.1.config.ServiceConfigs).Perm
      (LoadServiceAuthKeys { b with config := { b.config with ServiceConfigs := order2 } }
        keyGetter client st2).2.1.config.ServiceConfigs ∧
    ((LoadServiceAuthKeys b keyGetter client st1).1).Perm
      (LoadServiceAuthKeys { b with config := { b.config with ServiceConfigs := order2 } }
        keyGetter client st2).1 := by
  have run : ∀ (m : ServicesMap) (st : γ),
      (loadAuthKeysLoop keyGetter client m [] st).1 =
        m.map (fun e =>
          specServiceAfter e (if e.2.AuthRequired = true then some (f e.2) else none)) ∧
      (loadAuthKeysLoop keyGetter client m [] st).2.1 =
        m.filterMap (fun e =>
          specAuthError e.1 (if e.2.AuthRequired = true then some (f e.2) else none)) := by
    intro m st
    have h := loadAuthKeysLoop_eq keyGetter client m [] st
    rw [specKeyResponses_of_pure keyGetter client f hpure m st] at h
    rw [zipWith_map_self, filterMap_zip_map_self] at h
    exact ⟨h.1, by simpa using h.2⟩
  have hs1 := (run b.config.ServiceConfigs st1).1
  have he1 := (run b.config.ServiceConfigs st1).2
  have hs2 := (run order2 st2).1
  have he2 := (run order2 st2).2
  have hP : ((LoadServiceAuthKeys b keyGetter client st1).2.1.config.ServiceConfigs).Perm
      (LoadServiceAuthKeys { b with config := { b.config with ServiceConfigs := order2 } }
        keyGetter client st2).2.1.config.ServiceConfigs := by
    show (loadAuthKeysLoop keyGetter client b.config.ServiceConfigs [] st1).1.Perm
      (loadAuthKeysLoop keyGetter client order2 [] st2).1
    rw [hs1, hs2]
    exact hperm.map _
  refine ⟨?_, hP, ?_⟩
  · refine ServicesMap.get?_perm hP ?_
    show ServicesMap.NodupKeys (loadAuthKeysLoop keyGetter client b.config.ServiceConfigs [] st1).1
    rw [hs1]
    unfold ServicesMap.NodupKeys at hnodup ⊢
    rw [List.map_map]
    have : (Prod.fst ∘ fun e : String × ServiceConfig =>
        specServiceAfter e (if e.2.AuthRequired = true then some (f e.2) else none))
          = Prod.fst := by
      funext e
      exact specServiceAfter_fst _ _
    rw [this]
    exact hnodup
  · show (loadAuthKeysLoop keyGetter client b.config.ServiceConfigs [] st1).2.1.Perm
      (loadAuthKeysLoop keyGetter client order2 [] st2).2.1
    rw [he1, he2]
    exact hperm.filterMap _

/-- Witness of C9: the four services of the test visited in their listed order
and with the first two entries swapped. -/
theorem LoadServiceAuthKeys_order_independent_witness :
    ((LoadServiceAuthKeys exampleFourServices exampleMockGetter () ()).1).Perm
      (LoadServiceAuthKeys
        { exampleFourServices with
          config := { exampleFourServices.config with
            ServiceConfigs :=
              [("TEST_SERVICE_2", { Name := "TEST_SERVICE_2", AuthRequired := true }),
               ("TEST_SERVICE_1", { Name := "TEST_SERVICE_1", AuthRequired := true }),
               ("TEST_SERVICE_3", { Name := "TEST_SERVICE_3", AuthRequired := true }),
               ("TEST_SERVICE_4", { Name := "TEST_SERVICE_4", AuthRequired := true })] } }
        exampleMockGetter () ()).1 :=
  (LoadServiceAuthKeys_order_independent exampleFourServices
    [("TEST_SERVICE_2", { Name := "TEST_SERVICE_2", AuthRequired := true }),
     ("TEST_SERVICE_1", { Name := "TEST_SERVICE_1", AuthRequired := true }),
     ("TEST_SERVICE_3", { Name := "TEST_SERVICE_3", AuthRequired := true }),
     ("TEST_SERVICE_4", { Name := "TEST_SERVICE_4", AuthRequired := true })]
    exampleMockGetter () (fun sc => (exampleMockGetter.GetServiceKey () sc ()).1)
    (fun _ _ => rfl) (List.Perm.swap _ _ _)
    (by unfold ServicesMap.NodupKeys; decide) () ()).2.2

/-! ## `resolveCAPath` -/

theorem length_dropWhile_le_length {α : Type} (p : α → Bool) (l : List α) :
    (l.dropWhile p).length ≤ l.length := by
  induction l with
  | nil => simp
  | cons a rest ih =>
    simp only [List.dropWhile_cons]
    split
    · exact le_trans ih (Nat.le_succ _)
    · exact le_refl _

/-- The counter of `cleanLoop` is only a bound on the number of rounds: once it
is at least the number of bytes left, the result does not depend on it. -/
theorem cleanLoop_fuel (rooted : Bool) : ∀ (n : Nat) (rest : List Char), rest.length ≤ n →
    ∀ (f1 f2 : Nat), n ≤ f1 → n ≤ f2 → ∀ (out : List Char) (dotdot : Nat),
      cleanLoop rooted f1 rest out dotdot = cleanLoop rooted f2 rest out dotdot := by
  intro n
  induction n with
  | zero =>
    intro rest hrest f1 f2 _ _ out dotdot
    have : rest = [] := List.length_eq_zero.mp (Nat.le_zero.mp hrest)
    subst this
    cases f1 <;> cases f2 <;> rfl
  | succ n ih =>
    intro rest hrest f1 f2 h1 h2 out dotdot
    obtain ⟨g1, rfl⟩ : ∃ g, f1 = g + 1 := ⟨f1 - 1, by omega⟩
    obtain ⟨g2, rfl⟩ : ∃ g, f2 = g + 1 := ⟨f2 - 1, by omega⟩
    have hg1 : n ≤ g1 := by omega
    have hg2 : n ≤ g2 := by omega
    cases rest with
    | nil => rfl
    | cons c tl =>
      have htl : tl.length ≤ n := by simpa using hrest
      have htail : tl.tail.length ≤ n := by
        have := List.length_tail tl
        omega
      simp only [cleanLoop]
      split
      · exact ih tl htl g1 g2 hg1 hg2 _ _
      · split
        · exact ih tl htl g1 g2 hg1 hg2 _ _
        · split
          · split
            · exact ih _ htail g1 g2 hg1 hg2 _ _
            · split
              · exact ih _ htail g1 g2 hg1 hg2 _ _
              · exact ih _ htail g1 g2 hg1 hg2 _ _
          · refine ih _ ?_ g1 g2 hg1 hg2 _ _
            rename_i hc _ _
            have hdrop : List.dropWhile (fun x => decide (x ≠ '/')) (c :: tl)
                = List.dropWhile (fun x => decide (x ≠ '/')) tl := by
              simp [List.dropWhile_cons, hc]
            rw [hdrop]
            exact le_trans (length_dropWhile_le_length _ _) htl

/-- C10: for every `jsonPath` and `certPath`, `resolveCAPath(jsonPath,
certPath)` is "" when `certPath` is "" or when joining the directory of
`jsonPath` with `certPath` and normalising gives "."; otherwise it is exactly
that normalised join; it is never ".". The four cases of `Test_resolveCAPath`
with a non-trivial outcome evaluate as the test expects. -/
theorem resolveCAPath_spec :
    (∀ jsonPath certPath : String,
      (certPath = "" → resolveCAPath jsonPath certPath = "") ∧
      (pathJoin [pathDir jsonPath, certPath] = "." → resolveCAPath jsonPath certPath = "") ∧
      (certPath ≠ "" → pathJoin [pathDir jsonPath, certPath] ≠ "." →
        resolveCAPath jsonPath certPath = pathJoin [pathDir jsonPath, certPath]) ∧
      resolveCAPath jsonPath certPath ≠ ".") ∧
    resolveCAPath "foo/./bar.json" "cabundle.pem" = "foo/cabundle.pem" ∧
    resolveCAPath "foo/bar.json" ".." = "" ∧
    resolveCAPath "foo/bar.json" "" = "" ∧
    resolveCAPath "" "foo/cabundle.pem" = "foo/cabundle.pem" := by
  refine ⟨?_, by decide, by decide, by decide, by decide⟩
  intro jsonPath certPath
  by_cases hc : certPath = ""
  · simp [resolveCAPath, hc]
  · by_cases hj : pathJoin [pathDir jsonPath, certPath] = "."
    · simp [resolveCAPath, compathResolve, hc, hj]
    · simp [resolveCAPath, compathResolve, hc, hj]

/-- Witness of C10: for "foo/bar.json" and ".." the join normalises to ".",
so the result is the empty string. -/
theorem resolveCAPath_spec_witness :
    pathJoin [pathDir "foo/bar.json", ".."] = "." ∧ resolveCAPath "foo/bar.json" ".." = "" :=
  ⟨by decide, (resolveCAPath_spec.1 "foo/bar.json" "..").2.1 (by decide)⟩

/-- Counterexample to C11 as stated: with an empty config-file path and the
certificate path "foo/cabundle.pem" the result is "foo/cabundle.pem" (case 2
of `Test_resolveCAPath`), not the empty string. -/
theorem resolveCAPath_empty_json_counterexample :
    resolveCAPath "" "foo/cabundle.pem" = "foo/cabundle.pem" ∧
    resolveCAPath "" "foo/cabundle.pem" ≠ "" := by
  decide

/-- C11 (amended): for every certificate path `certPath`,
`resolveCAPath("", certPath)` resolves `certPath` against the current
directory: it is "" when `certPath` is "" or when joining "." with `certPath`
and normalising gives ".", and otherwise exactly that normalised join. -/
theorem resolveCAPath_empty_json (certPath : String) :
    resolveCAPath "" certPath =
      if certPath = "" ∨ pathJoin [".", certPath] = "." then ""
      else pathJoin [".", certPath] := by
  have hdir : pathDir "" = "." := by decide
  by_cases hc : certPath = ""
  · simp [resolveCAPath, hc]
  · by_cases hj : pathJoin [".", certPath] = "."
    · simp [resolveCAPath, compathResolve, hdir, hc, hj]
    · simp [resolveCAPath, compathResolve, hdir, hc, hj]

/-! ## Go maps and `UnmarshalJSON` -/

theorem GoMap.get?_set_self {α : Type} (m : List (String × α)) (k : String) (v : α) :
    GoMap.get? (GoMap.set m k v) k = some v := by
  induction m with
  | nil => simp [GoMap.set, GoMap.get?]
  | cons e rest ih =>
    obtain ⟨k1, v1⟩ := e
    by_cases h : k1 = k
    · simp [GoMap.set, GoMap.get?, h]
    · simp [GoMap.set, GoMap.get?, h, ih]

theorem GoMap.get?_set_ne {α : Type} (m : List (String × α)) (k : String) (v : α)
    (k2 : String) (hne : k ≠ k2) :
    GoMap.get? (GoMap.set m k v) k2 = GoMap.get? m k2 := by
  induction m with
  | nil => simp [GoMap.set, GoMap.get?, hne]
  | cons e rest ih =>
    obtain ⟨k1, v1⟩ := e
    by_cases h : k1 = k
    · subst h
      simp [GoMap.set, GoMap.get?, hne]
    · by_cases h2 : k1 = k2
      · subst h2
        simp [GoMap.set, GoMap.get?, h]
      · simp [GoMap.set, GoMap.get?, h, h2, ih]

theorem GoMap.keys_set {α : Type} (m : List (String × α)) (k : String) (v : α) :
    (GoMap.set m k v).map Prod.fst =
      if k ∈ m.map Prod.fst then m.map Prod.fst else m.map Prod.fst ++ [k] := by
  induction m with
  | nil => simp [GoMap.set]
  | cons e rest ih =>
    obtain ⟨k1, v1⟩ := e
    by_cases h : k1 = k
    · subst h
      simp [GoMap.set]
    · have h2 : ¬ k = k1 := fun h3 => h h3.symm
      by_cases hm : k ∈ rest.map Prod.fst
      · simp only [GoMap.set, h, if_false, List.map_cons, ih, hm, if_true, List.mem_cons,
          or_true]
      · simp only [GoMap.set, h, if_false, List.map_cons, ih, hm, List.mem_cons, h2,
          or_self, List.cons_append]

theorem GoMap.nodup_set {α : Type} (m : List (String × α)) (k : String) (v : α)
    (hnd : (m.map Prod.fst).Nodup) : ((GoMap.set m k v).map Prod.fst).Nodup := by
  rw [GoMap.keys_set]
  by_cases hm : k ∈ m.map Prod.fst
  · simpa [hm] using hnd
  · simp only [hm, if_false]
    rw [List.nodup_append]
    refine ⟨hnd, List.nodup_singleton k, ?_⟩
    intro a ha hb
    have hak : a = k := by simpa using hb
    exact hm (hak ▸ ha)

theorem GoMap.mem_keys_iff {α : Type} (m : List (String × α)) (k : String) :
    k ∈ m.map Prod.fst ↔ (GoMap.get? m k).isSome = true := by
  induction m with
  | nil => simp [GoMap.get?]
  | cons e rest ih =>
    obtain ⟨k1, v1⟩ := e
    by_cases h : k1 = k
    · simp [GoMap.get?, h]
    · have h2 : ¬ k = k1 := fun h3 => h h3.symm
      simp [GoMap.get?, h, h2, ih]

/-- Building a map from a list by successive writes under `nameOf`: a read
gives the last list entry with that name, and else what the map held before. -/
theorem GoMap.get?_foldl_set {α : Type} (nameOf : α → String) (l : List α) :
    ∀ (m : List (String × α)) (name : String),
      GoMap.get? (l.foldl (fun acc x => GoMap.set acc (nameOf x) x) m) name =
        match l.reverse.find? (fun x => decide (nameOf x = name)) with
        | some x => some x
        | none => GoMap.get? m name := by
  induction l with
  | nil => intro m name; simp
  | cons x rest ih =>
    intro m name
    simp only [List.foldl_cons, ih, List.reverse_cons, List.find?_append]
    cases hfind : List.find? (fun x => decide (nameOf x = name)) rest.reverse with
    | some y => simp
    | none =>
      by_cases hx : nameOf x = name
      · subst hx
        simp [GoMap.get?_set_self]
      · simp [hx, GoMap.get?_set_ne _ _ _ _ hx]

theorem GoMap.nodup_foldl_set {α : Type} (nameOf : α → String) (l : List α) :
    ∀ (m : List (String × α)), (m.map Prod.fst).Nodup →
      ((l.foldl (fun acc x => GoMap.set acc (nameOf x) x) m).map Prod.fst).Nodup := by
  induction l with
  | nil => intro m h; simpa using h
  | cons x rest ih =>
    intro m h
    exact ih _ (GoMap.nodup_set m (nameOf x) x h)

/-- The three facts of C13 for any list-to-map loop of `services.go`: the map
has pairwise distinct keys, its keys are the names occurring in the list, and
every name maps to the last list entry carrying it. -/
theorem GoMap.foldl_set_spec {α : Type} (nameOf : α → String) (l : List α) :
    ((l.foldl (fun acc x => GoMap.set acc (nameOf x) x) []).map Prod.fst).Nodup ∧
    (∀ name, name ∈ (l.foldl (fun acc x => GoMap.set acc (nameOf x) x) []).map Prod.fst ↔
      ∃ x ∈ l, nameOf x = name) ∧
    (∀ name, GoMap.get? (l.foldl (fun acc x => GoMap.set acc (nameOf x) x) []) name =
      l.reverse.find? (fun x => decide (nameOf x = name))) := by
  have hget : ∀ name, GoMap.get? (l.foldl (fun acc x => GoMap.set acc (nameOf x) x) []) name =
      l.reverse.find? (fun x => decide (nameOf x = name)) := by
    intro name
    rw [GoMap.get?_foldl_set]
    cases List.find? (fun x => decide (nameOf x = name)) l.reverse <;> simp [GoMap.get?]
  refine ⟨GoMap.nodup_foldl_set nameOf l [] (by simp), ?_, hget⟩
  intro name
  rw [GoMap.mem_keys_iff, hget, List.find?_isSome]
  simp

/-- C13: for every decoded list of service, database or endpoint entries,
`UnmarshalJSON` returns nil (no list is rejected) and builds a map whose keys
are pairwise distinct and are exactly the names occurring in the list, each
name mapping to a copy of the last list entry that carries it: a later
duplicate overwrites an earlier one. -/
theorem UnmarshalJSON_last_wins :
    (∀ services : List ServiceConfig,
      (ServicesMap.UnmarshalJSON (.ok services)).1 = none ∧
      (((ServicesMap.UnmarshalJSON (.ok services)).2).map Prod.fst).Nodup ∧
      (∀ name, name ∈ ((ServicesMap.UnmarshalJSON (.ok services)).2).map Prod.fst ↔
        ∃ s ∈ services, s.Name = name) ∧
      (∀ name, GoMap.get? (ServicesMap.UnmarshalJSON (.ok services)).2 name =
        services.reverse.find? (fun s => decide (s.Name = name)))) ∧
    (∀ databases : List DatabaseConfig,
      (DatabasesMap.UnmarshalJSON (.ok databases)).1 = none ∧
      (((DatabasesMap.UnmarshalJSON (.ok databases)).2).map Prod.fst).Nodup ∧
      (∀ name, name ∈ ((DatabasesMap.UnmarshalJSON (.ok databases)).2).map Prod.fst ↔
        ∃ d ∈ databases, d.Name = name) ∧
      (∀ name, GoMap.get? (DatabasesMap.UnmarshalJSON (.ok databases)).2 name =
        databases.reverse.find? (fun d => decide (d.Name = name)))) ∧
    (∀ endpoints : List EndpointConfig,
      (EndpointMap.UnmarshalJSON (.ok endpoints)).1 = none ∧
      (((EndpointMap.UnmarshalJSON (.ok endpoints)).2).map Prod.fst).Nodup ∧
      (∀ name, name ∈ ((EndpointMap.UnmarshalJSON (.ok endpoints)).2).map Prod.fst ↔
        ∃ e ∈ endpoints, e.Name = name) ∧
      (∀ name, GoMap.get? (EndpointMap.UnmarshalJSON (.ok endpoints)).2 name =
        endpoints.reverse.find? (fun e => decide (e.Name = name)))) := by
  refine ⟨?_, ?_, ?_⟩
  · intro services
    exact ⟨rfl, GoMap.foldl_set_spec (fun s : ServiceConfig => s.Name) services⟩
  · intro databases
    exact ⟨rfl, GoMap.foldl_set_spec (fun d : DatabaseConfig => d.Name) databases⟩
  · intro endpoints
    exact ⟨rfl, GoMap.foldl_set_spec (fun e : EndpointConfig => e.Name) endpoints⟩

/-! ## The content hash -/

/-- Counterexample to C14 as stated: for `a = ""` the first call leaves the
hash unset, so a later `NewHashCode("def")` is not a no-op: it returns "def",
not `a`. -/
theorem NewHashCode_write_once_counterexample :
    (NewHashCode "" "").1 = "" ∧
    (NewHashCode (NewHashCode "" "").2 "def").1 = "def" ∧
    HashCode (NewHashCode (NewHashCode "" "").2 "def").2 = "def" ∧
    "def" ≠ "" := by
  decide

/-- C14 (amended): the content hash is write-once for non-empty values.
Starting from the unset state, for every non-empty string `a`,
`NewHashCode(a)` returns `a` and sets the hash to `a`; from then on every
`NewHashCode(b)` returns `a` and leaves `HashCode() = a`, for any `b` and after
any number of further calls. -/
theorem NewHashCode_write_once (a : String) (ha : a ≠ "") :
    NewHashCode "" a = (a, a) ∧
    (∀ b, NewHashCode a b = (a, a)) ∧
    HashCode (NewHashCode "" a).2 = a ∧
    (∀ bs : List String,
      HashCode (bs.foldl (fun st b => (NewHashCode st b).2) (NewHashCode "" a).2) = a) := by
  have h1 : NewHashCode "" a = (a, a) := by simp [NewHashCode]
  have h2 : ∀ b, NewHashCode a b = (a, a) := by
    intro b
    simp [NewHashCode, ha]
  refine ⟨h1, h2, by rw [h1]; rfl, ?_⟩
  intro bs
  rw [h1]
  induction bs with
  | nil => rfl
  | cons b rest ih => simpa [List.foldl_cons, h2 b] using ih

/-- Witness of C14 (amended): the calls of `TestHashCode`, "abc" then "def". -/
theorem NewHashCode_write_once_witness :
    NewHashCode "" "abc" = ("abc", "abc") ∧ NewHashCode "abc" "def" = ("abc", "abc") :=
  ⟨(NewHashCode_write_once "abc" (by decide)).1,
    (NewHashCode_write_once "abc" (by decide)).2.1 "def"⟩

/-! ## The environment-variable key getter -/

/-- Counterexample to C16 as stated: for a service whose
`AuthEnvironmentVariable` is the empty string, in an environment where every
variable is unset, the getter returns the empty key and no error. -/
theorem GetServiceKey_env_counterexample :
    exampleUnsetEnvironment
        ({ Name := "A", AuthRequired := true } : ServiceConfig).AuthEnvironmentVariable = "" ∧
    adapterService.GetServiceKey exampleUnsetEnvironment { Name := "A", AuthRequired := true }
      = ("", none) := by
  decide

/-- C16 (amended): for every service whose `AuthEnvironmentVariable` is not
empty and every environment, `adapterService.GetServiceKey` returns the value
of that variable without error when the value is non-empty, and fails with the
error "Empty auth key for '<variable>'" when the variable is unset or empty.
For a service whose `AuthEnvironmentVariable` is empty it returns the empty
key without error. -/
theorem GetServiceKey_env (getenv : String → String) (service : ServiceConfig) :
    (service.AuthEnvironmentVariable ≠ "" → getenv service.AuthEnvironmentVariable ≠ "" →
      adapterService.GetServiceKey getenv service
        = (getenv service.AuthEnvironmentVariable, none)) ∧
    (service.AuthEnvironmentVariable ≠ "" → getenv service.AuthEnvironmentVariable = "" →
      adapterService.GetServiceKey getenv service
        = ("", some (GoError.new
            ("Empty auth key for \x27" ++ service.AuthEnvironmentVariable ++ "\x27")))) ∧
    (service.AuthEnvironmentVariable = "" →
      adapterService.GetServiceKey getenv service = ("", none)) := by
  refine ⟨?_, ?_, ?_⟩
  · intro hv he
    simp [adapterService.GetServiceKey, adapterService.getEnvironmentKey, hv, he]
  · intro hv he
    simp [adapterService.GetServiceKey, adapterService.getEnvironmentKey, hv, he]
  · intro hv
    simp [adapterService.GetServiceKey, hv]

/-- Witness of C16 (amended): with `CRM_KEY=s3cret` in the environment the
service naming `CRM_KEY` gets "s3cret"; the service naming the unset `OTHER`
gets the error. -/
theorem GetServiceKey_env_witness :
    adapterService.GetServiceKey (fun v => if v = "CRM_KEY" then "s3cret" else "")
        { Name := "A", AuthEnvironmentVariable := "CRM_KEY" } = ("s3cret", none) ∧
    adapterService.GetServiceKey (fun v => if v = "CRM_KEY" then "s3cret" else "")
        { Name := "B", AuthEnvironmentVariable := "OTHER" }
      = ("", some (GoError.new "Empty auth key for \x27OTHER\x27")) :=
  ⟨(GetServiceKey_env (fun v => if v = "CRM_KEY" then "s3cret" else "")
      { Name := "A", AuthEnvironmentVariable := "CRM_KEY" }).1 (by decide) (by decide),
    (GetServiceKey_env (fun v => if v = "CRM_KEY" then "s3cret" else "")
      { Name := "B", AuthEnvironmentVariable := "OTHER" }).2.1 (by decide) (by decide)⟩

/-! ## `GetDatabaseConfig` -/

theorem GoMap.set_set {α : Type} (m : List (String × α)) (k : String) (v w : α) :
    GoMap.set (GoMap.set m k v) k w = GoMap.set m k w := by
  induction m with
  | nil => simp [GoMap.set]
  | cons e rest ih =>
    obtain ⟨k1, v1⟩ := e
    by_cases h : k1 = k
    · simp [GoMap.set, h]
    · simp [GoMap.set, h, ih]

theorem GoMap.keys_set_of_get? {α : Type} (m : List (String × α)) (k : String) (v w : α)
    (h : GoMap.get? m k = some v) : (GoMap.set m k w).map Prod.fst = m.map Prod.fst := by
  have hmem : k ∈ m.map Prod.fst := (GoMap.mem_keys_iff m k).mpr (by simp [h])
  rw [GoMap.keys_set, if_pos hmem]

theorem GoMap.get?_eq_none_iff {α : Type} (m : List (String × α)) (k : String) :
    GoMap.get? m k = none ↔ k ∉ m.map Prod.fst := by
  rw [GoMap.mem_keys_iff]
  cases GoMap.get? m k <;> simp

/-- C18: for every configuration, environment and name,
`GetDatabaseConfig(name)` fails with the not-found error and returns no entry
if and only if `name` is not a key of `DatabaseConfigs` (and then changes
nothing); on success it returns the mapped entry as it is after the call: with
`AuthRequired` its `Password` is the value of the environment variable
`AuthEnvironmentVariable` and its other fields are unchanged, without
`AuthRequired` nothing changes at all. Entries under other names, the set of
keys and all other fields of the configuration stay as they were, and a second
lookup of the same name under the same environment returns the same and
changes nothing further. -/
theorem GetDatabaseConfig_spec (c : Config) (getenv : String → String) (name : String) :
    (((c.GetDatabaseConfig getenv name).1.2 ≠ none ∧ (c.GetDatabaseConfig getenv name).1.1 = none)
      ↔ name ∉ c.DatabaseConfigs.map Prod.fst) ∧
    (name ∉ c.DatabaseConfigs.map Prod.fst →
      c.GetDatabaseConfig getenv name =
        ((none, some (GoError.new ("unable to locate database configuration for " ++ name))),
          c)) ∧
    (∀ database, GoMap.get? c.DatabaseConfigs name = some database →
      (database.AuthRequired = true →
        (c.GetDatabaseConfig getenv name).1 =
          (some { database with Password := getenv database.AuthEnvironmentVariable }, none) ∧
        GoMap.get? (c.GetDatabaseConfig getenv name).2.DatabaseConfigs name =
          some { database with Password := getenv database.AuthEnvironmentVariable }) ∧
      (database.AuthRequired = false →
        c.GetDatabaseConfig getenv name = ((some database, none), c))) ∧
    (∀ other, other ≠ name →
      GoMap.get? (c.GetDatabaseConfig getenv name).2.DatabaseConfigs other =
        GoMap.get? c.DatabaseConfigs other) ∧
    (c.GetDatabaseConfig getenv name).2.DatabaseConfigs.map Prod.fst
      = c.DatabaseConfigs.map Prod.fst ∧
    (c.GetDatabaseConfig getenv name).2 =
      { c with DatabaseConfigs := (c.GetDatabaseConfig getenv name).2.DatabaseConfigs } ∧
    (c.GetDatabaseConfig getenv name).2.GetDatabaseConfig getenv name =
      c.GetDatabaseConfig getenv name := by
  cases hget : GoMap.get? c.DatabaseConfigs name with
  | none =>
    have hnot : name ∉ c.DatabaseConfigs.map Prod.fst := (GoMap.get?_eq_none_iff _ _).mp hget
    have hres : c.GetDatabaseConfig getenv name =
        ((none, some (GoError.new ("unable to locate database configuration for " ++ name))),
          c) := by
      simp [Config.GetDatabaseConfig, hget]
    refine ⟨?_, fun _ => hres, ?_, ?_, ?_, ?_, ?_⟩
    · rw [hres]
      simpa using hnot
    · intro database hd
      cases hd
    · intro other _
      rw [hres]
    · rw [hres]
    · rw [hres]
    · rw [hres]
      exact hres
  | some database =>
    have hmem : name ∈ c.DatabaseConfigs.map Prod.fst :=
      (GoMap.mem_keys_iff _ _).mpr (by simp [hget])
    cases hreq : database.AuthRequired with
    | false =>
      have hres : c.GetDatabaseConfig getenv name = ((some database, none), c) := by
        simp [Config.GetDatabaseConfig, hget, hreq]
      refine ⟨?_, fun h => absurd hmem h, ?_, ?_, ?_, ?_, ?_⟩
      · rw [hres]
        simp [hmem]
      · intro d hd
        cases hd
        refine ⟨fun h => ?_, fun _ => hres⟩
        rw [hreq] at h
        cases h
      · intro other _
        rw [hres]
      · rw [hres]
      · rw [hres]
      · rw [hres]
        exact hres
    | true =>
      have hres : c.GetDatabaseConfig getenv name =
          ((some { database with Password := getenv database.AuthEnvironmentVariable }, none),
            { c with
              DatabaseConfigs :=
                GoMap.set c.DatabaseConfigs name
                  { database with Password := getenv database.AuthEnvironmentVariable } }) := by
        simp [Config.GetDatabaseConfig, hget, hreq]
      refine ⟨?_, fun h => absurd hmem h, ?_, ?_, ?_, ?_, ?_⟩
      · rw [hres]
        simp [hmem]
      · intro d hd
        cases hd
        refine ⟨fun _ => ⟨by rw [hres], ?_⟩, fun h => ?_⟩
        · rw [hres]
          exact GoMap.get?_set_self _ _ _
        · rw [hreq] at h
          cases h
      · intro other hne
        rw [hres]
        exact GoMap.get?_set_ne _ _ _ _ (fun h => hne h.symm)
      · rw [hres]
        exact GoMap.keys_set_of_get? _ _ _ _ hget
      · rw [hres]
      · rw [hres]
        simp [Config.GetDatabaseConfig, GoMap.get?_set_self, hreq, GoMap.set_set]

/-- Witness of C18: the database "MDBAuth" of the example configuration gets
its password from `CRM_DB_PW`; a name that is not configured is not found. -/
theorem GetDatabaseConfig_spec_witness :
    (exampleDatabases.GetDatabaseConfig exampleGetenv "MDBAuth").1 =
      (some { Name := "MDBAuth", Database := "MyDatabaseAuth", Server := "MyServer:1433",
              Username := "MyUser", AuthRequired := true,
              AuthEnvironmentVariable := "CRM_DB_PW", Password := "pw1" }, none) ∧
    exampleDatabases.GetDatabaseConfig exampleGetenv "Missing" =
      ((none, some (GoError.new "unable to locate database configuration for Missing")),
        exampleDatabases) :=
  ⟨((GetDatabaseConfig_spec exampleDatabases exampleGetenv "MDBAuth").2.2.1
      { Name := "MDBAuth", Database := "MyDatabaseAuth", Server := "MyServer:1433",
        Username := "MyUser", AuthRequired := true, AuthEnvironmentVariable := "CRM_DB_PW" }
      (by decide)).1 (by decide) |>.1,
    (GetDatabaseConfig_spec exampleDatabases exampleGetenv "Missing").2.1 (by decide)⟩

/-! ## Certificate cache -/

theorem LoadCertPool_reads {π : Type} (env : CertEnv π) (path : String) (reads : List String) :
    (LoadCertPool env path reads).2 = reads ++ [path] := by
  unfold LoadCertPool
  split
  · rfl
  · split <;> rfl

/-- C12: for every cache, every non-empty original path `p` and every state of
the file system: once `loadCABundle(cache, r, p)` has returned nil, the cache
holds a pool under `p`, and a second `loadCABundle(cache, r2, p)`, for any
resolved path `r2` and any later state of the file system, returns nil, reads
no file and leaves the cache unchanged. Over both calls the bundle is read
once, from `r`, when `p` was not cached before, and not at all when it was. -/
theorem loadCABundle_cached {π : Type} (env1 env2 : CertEnv π) (cache : bundleMap π)
    (r r2 p : String) (reads : List String) (hp : p ≠ "")
    (hok : (loadCABundle env1 cache r p reads).1 = none) :
    loadCABundle env2 (loadCABundle env1 cache r p reads).2.1 r2 p
        (loadCABundle env1 cache r p reads).2.2
      = (none, (loadCABundle env1 cache r p reads).2.1,
          (loadCABundle env1 cache r p reads).2.2) ∧
    (GoMap.get? (loadCABundle env1 cache r p reads).2.1 p).isSome = true ∧
    (loadCABundle env1 cache r p reads).2.2 =
      reads ++ (if (GoMap.get? cache p).isSome = true then [] else [r]) := by
  cases hget : GoMap.get? cache p with
  | some pool =>
    have h1 : loadCABundle env1 cache r p reads = (none, cache, reads) := by
      simp [loadCABundle, hp, hget]
    rw [h1]
    simp [loadCABundle, hp, hget]
  | none =>
    rcases hload : LoadCertPool env1 r reads with ⟨res, reads1⟩
    have hreads : reads1 = reads ++ [r] := by
      have := LoadCertPool_reads env1 r reads
      rw [hload] at this
      exact this
    cases res with
    | error e =>
      have h1 : (loadCABundle env1 cache r p reads).1 = some e := by
        simp [loadCABundle, hp, hget, hload]
      rw [h1] at hok
      cases hok
    | ok pool =>
      have h1 : loadCABundle env1 cache r p reads = (none, GoMap.set cache p pool, reads1) := by
        simp [loadCABundle, hp, hget, hload]
      rw [h1]
      simp [loadCABundle, hp, GoMap.get?_set_self, hreads]

/-- Witness of C12: the bundle "cabundle.pem" is loaded from
"foo/cabundle.pem" into the empty cache; the second call, made when no file
exists any more, succeeds and reads nothing. -/
theorem loadCABundle_cached_witness :
    loadCABundle exampleNoFiles
        (loadCABundle exampleCertEnv [] "foo/cabundle.pem" "cabundle.pem" []).2.1
        "foo/cabundle.pem" "cabundle.pem"
        (loadCABundle exampleCertEnv [] "foo/cabundle.pem" "cabundle.pem" []).2.2
      = (none, (loadCABundle exampleCertEnv [] "foo/cabundle.pem" "cabundle.pem" []).2.1,
          (loadCABundle exampleCertEnv [] "foo/cabundle.pem" "cabundle.pem" []).2.2) ∧
    (loadCABundle exampleCertEnv [] "foo/cabundle.pem" "cabundle.pem" []).2.2
      = ["foo/cabundle.pem"] :=
  ⟨(loadCABundle_cached exampleCertEnv exampleNoFiles [] "foo/cabundle.pem"
      "foo/cabundle.pem" "cabundle.pem" [] (by decide) (by decide)).1,
    (loadCABundle_cached exampleCertEnv exampleNoFiles [] "foo/cabundle.pem"
      "foo/cabundle.pem" "cabundle.pem" [] (by decide) (by decide)).2.2⟩

/-! ## `createHTTPClient` -/

/-- C17: for every merged `ClientConfig` `mc` and certificate cache, the client
built by `createHTTPClient` is `rbfn(mc.MaxRetries, baseClient)` (no error
path), and the TLS settings of `baseClient` skip verification if and only if
`mc.InsecureSkipVerify = True` (`UnSet` and `False` do not skip). When
verification is not skipped the trusted roots are the pool stored in the
cache under `mc.CABundlePath` if that key is present and unset otherwise; when
verification is skipped no roots are attached. -/
theorem createHTTPClient_tls {π ρ : Type} (mc : ClientConfig) (mapCertPools : bundleMap π)
    (rbfn : Int → HTTPClient π → ρ) :
    createHTTPClient mc mapCertPools rbfn
      = rbfn mc.MaxRetries (createBaseClient mc mapCertPools) ∧
    ((createBaseClient mc mapCertPools).Transport.TLSClientConfig.InsecureSkipVerify = true
      ↔ mc.InsecureSkipVerify = configFlag.True) ∧
    (mc.InsecureSkipVerify = configFlag.UnSet ∨ mc.InsecureSkipVerify = configFlag.False →
      (createBaseClient mc mapCertPools).Transport.TLSClientConfig.InsecureSkipVerify = false) ∧
    (mc.InsecureSkipVerify ≠ configFlag.True →
      (createBaseClient mc mapCertPools).Transport.TLSClientConfig.RootCAs
        = GoMap.get? mapCertPools mc.CABundlePath) ∧
    (mc.InsecureSkipVerify = configFlag.True →
      (createBaseClient mc mapCertPools).Transport.TLSClientConfig.RootCAs = none) := by
  have hskip : mc.InsecureSkipVerify = configFlag.True →
      (createBaseClient mc mapCertPools).Transport.TLSClientConfig
        = { InsecureSkipVerify := true } := by
    intro h
    simp [createBaseClient, h]
  have hnot : mc.InsecureSkipVerify ≠ configFlag.True →
      (createBaseClient mc mapCertPools).Transport.TLSClientConfig
        = { RootCAs := GoMap.get? mapCertPools mc.CABundlePath } := by
    intro h
    cases hg : GoMap.get? mapCertPools mc.CABundlePath <;> simp [createBaseClient, h, hg]
  refine ⟨rfl, ?_, ?_, ?_, ?_⟩
  · constructor
    · intro h
      by_contra hne
      rw [hnot hne] at h
      cases h
    · intro h
      rw [hskip h]
  · intro h
    have hne : mc.InsecureSkipVerify ≠ configFlag.True := by
      rcases h with h | h <;> rw [h] <;> decide
    rw [hnot hne]
  · intro h
    rw [hnot h]
  · intro h
    rw [hskip h]

/-- Witness of C17: with `InsecureSkipVerify = False` and the bundle path
"cabundle.pem" present in the cache, the pool cached under that path becomes
the roots. -/
theorem createHTTPClient_tls_witness :
    (createBaseClient { InsecureSkipVerify := configFlag.False, CABundlePath := "cabundle.pem" }
        ([("cabundle.pem", [45, 45, 45])] : bundleMap Bytes)).Transport.TLSClientConfig.RootCAs
      = GoMap.get? ([("cabundle.pem", [45, 45, 45])] : bundleMap Bytes)
          ({ InsecureSkipVerify := configFlag.False,
             CABundlePath := "cabundle.pem" } : ClientConfig).CABundlePath :=
  (createHTTPClient_tls (ρ := Unit)
    { InsecureSkipVerify := configFlag.False, CABundlePath := "cabundle.pem" }
    ([("cabundle.pem", [45, 45, 45])] : bundleMap Bytes) (fun _ _ => ())).2.2.2.1 (by decide)

/-! ## `InitClientFn` -/

/-- Evaluation for C19: for the config file "foo/bar.json" and the default
bundle path "..", `resolveCAPath` returns the empty string, and `InitClientFn`
then reads the file named by the empty string, on every file system; on a
file system without that file it fails with "Error reading cert file " and
returns no function. -/
theorem InitClientFn_dotdot_reads_empty_path :
    resolveCAPath "foo/bar.json" ".." = "" ∧
    (∀ env : CertEnv Bytes,
      (exampleDotDotBuilder.InitClientFn env (fun _ _ => ()) []).reads = [""]) ∧
    (exampleDotDotBuilder.InitClientFn exampleNoFiles (fun _ _ => ()) []).err
      = some (GoError.errorLog "Error reading cert file "
          (GoError.new "open : no such file or directory")) ∧
    (exampleDotDotBuilder.InitClientFn exampleNoFiles (fun _ _ => ()) []).buildClientFn.isNone
      = true := by
  refine ⟨by decide, ?_, by decide, by decide⟩
  intro env
  have hres : resolveCAPath "foo/bar.json" ".." = "" := by decide
  have hp : (".." : String) ≠ "" := by decide
  rcases hload : LoadCertPool env "" [] with ⟨res, reads1⟩
  have hreads : reads1 = [""] := by
    have := LoadCertPool_reads env "" []
    rw [hload] at this
    simpa using this
  cases res with
  | error e =>
    simp [defaultConfigBuilder.InitClientFn, defaultConfigBuilder.GetConfigPath,
      exampleDotDotBuilder, loadCABundle, GoMap.get?, hres, hp, hload, hreads]
  | ok pool =>
    simp [defaultConfigBuilder.InitClientFn, defaultConfigBuilder.GetConfigPath,
      exampleDotDotBuilder, loadCABundle, GoMap.get?, hres, hp, hload, hreads, initClientLoop]

theorem loadCABundle_cases {π : Type} (env : CertEnv π) (m : bundleMap π) (r p : String)
    (reads : List String) :
    (loadCABundle env m r p reads = (none, m, reads) ∧
      (p = "" ∨ (GoMap.get? m p).isSome = true)) ∨
    (∃ e, loadCABundle env m r p reads = (some e, m, reads ++ [r])) ∨
    (∃ pool, p ≠ "" ∧ GoMap.get? m p = none ∧
      loadCABundle env m r p reads = (none, GoMap.set m p pool, reads ++ [r])) := by
  by_cases hp : p = ""
  · left
    simp [loadCABundle, hp]
  · cases hget : GoMap.get? m p with
    | some pool =>
      left
      simp [loadCABundle, hp, hget]
    | none =>
      right
      rcases hload : LoadCertPool env r reads with ⟨res, reads1⟩
      have hreads : reads1 = reads ++ [r] := by
        have := LoadCertPool_reads env r reads
        rw [hload] at this
        exact this
      subst hreads
      cases res with
      | error e =>
        left
        exact ⟨e, by simp [loadCABundle, hp, hget, hload]⟩
      | ok pool =>
        right
        exact ⟨pool, hp, rfl, by simp [loadCABundle, hp, hget, hload]⟩

theorem loadCABundle_err_cache {π : Type} (env : CertEnv π) (m : bundleMap π) (r p : String)
    (reads : List String) (herr : (loadCABundle env m r p reads).1 ≠ none) :
    (loadCABundle env m r p reads).2.1 = m := by
  rcases loadCABundle_cases env m r p reads with ⟨h, _⟩ | ⟨e, h⟩ | ⟨pool, _, _, h⟩
  · rw [h]
  · rw [h]
  · rw [h] at herr
    exact absurd rfl herr

theorem loadCABundle_ok_keys {π : Type} (env : CertEnv π) (m m1 : bundleMap π) (r p : String)
    (reads reads1 : List String) (h : loadCABundle env m r p reads = (none, m1, reads1)) :
    ((m.map Prod.fst).Nodup → (m1.map Prod.fst).Nodup) ∧
    (∀ k, k ∈ m1.map Prod.fst ↔ k ∈ m.map Prod.fst ∨ (k = p ∧ p ≠ "")) := by
  rcases loadCABundle_cases env m r p reads with ⟨h1, hc⟩ | ⟨e, h1⟩ | ⟨pool, hp, hget, h1⟩
  · rw [h1] at h
    obtain ⟨-, rfl, -⟩ : none = (none : Option GoError) ∧ m = m1 ∧ reads = reads1 := by
      simpa using h
    refine ⟨id, fun k => ⟨Or.inl, ?_⟩⟩
    rintro (hk | ⟨rfl, hne⟩)
    · exact hk
    · rcases hc with hc | hc
      · exact absurd hc hne
      · exact (GoMap.mem_keys_iff m k).mpr hc
  · rw [h1] at h
    simp at h
  · rw [h1] at h
    obtain ⟨-, rfl, -⟩ :
        none = (none : Option GoError) ∧ GoMap.set m p pool = m1 ∧ reads ++ [r] = reads1 := by
      simpa using h
    have hnot : p ∉ m.map Prod.fst := (GoMap.get?_eq_none_iff m p).mp hget
    refine ⟨fun hnd => GoMap.nodup_set m p pool hnd, fun k => ?_⟩
    rw [GoMap.keys_set, if_neg hnot]
    simp only [List.mem_append, List.mem_singleton]
    constructor
    · rintro (hk | hk)
      · exact Or.inl hk
      · exact Or.inr ⟨hk, hp⟩
    · rintro (hk | ⟨hk, _⟩)
      · exact Or.inl hk
      · exact Or.inr hk

theorem initClientLoop_ok_keys {π : Type} (env : CertEnv π) (configPath : String)
    (services : ServicesMap) : ∀ (m m2 : bundleMap π) (reads reads2 : List String),
    initClientLoop env configPath services m reads = (none, m2, reads2) →
      ((m.map Prod.fst).Nodup → (m2.map Prod.fst).Nodup) ∧
      (∀ k, k ∈ m2.map Prod.fst ↔
        k ∈ m.map Prod.fst ∨
          (k ≠ "" ∧ ∃ e ∈ services, e.2.MergedComponentConfigs.Client.CABundlePath = k)) := by
  induction services with
  | nil =>
    intro m m2 reads reads2 h
    obtain ⟨rfl, -⟩ : m = m2 ∧ reads = reads2 := by simpa [initClientLoop] using h
    exact ⟨id, fun k => by simp⟩
  | cons e rest ih =>
    intro m m2 reads reads2 h
    obtain ⟨name, sc⟩ := e
    rcases hstep : loadCABundle env m
        (resolveCAPath configPath sc.MergedComponentConfigs.Client.CABundlePath)
        sc.MergedComponentConfigs.Client.CABundlePath reads with ⟨err, m1, reads1⟩
    cases err with
    | some e1 =>
      simp [initClientLoop, hstep] at h
    | none =>
      have hrest : initClientLoop env configPath rest m1 reads1 = (none, m2, reads2) := by
        simpa [initClientLoop, hstep] using h
      obtain ⟨hnd1, hk1⟩ := loadCABundle_ok_keys env m m1 _ _ reads reads1 hstep
      obtain ⟨hnd2, hk2⟩ := ih m1 m2 reads1 reads2 hrest
      refine ⟨fun hnd => hnd2 (hnd1 hnd), fun k => ?_⟩
      rw [hk2, hk1]
      constructor
      · rintro ((hk | ⟨rfl, hne⟩) | ⟨hne, e2, he2, hp⟩)
        · exact Or.inl hk
        · exact Or.inr ⟨hne, (name, sc), List.mem_cons_self _ _, rfl⟩
        · exact Or.inr ⟨hne, e2, List.mem_cons_of_mem _ he2, hp⟩
      · rintro (hk | ⟨hne, e2, he2, hp⟩)
        · exact Or.inl (Or.inl hk)
        · rcases List.mem_cons.mp he2 with rfl | he2
          · exact Or.inl (Or.inr ⟨hp.symm, hp ▸ hne⟩)
          · exact Or.inr ⟨hne, e2, he2, hp⟩

theorem InitClientFn_ok {π ρ : Type} (b : defaultConfigBuilder) (env : CertEnv π)
    (rbfn : Int → HTTPClient π → ρ) (reads : List String)
    (hok : (b.InitClientFn env rbfn reads).err = none) :
    ∃ m1 reads1,
      loadCABundle env [] (resolveCAPath b.configPath
          b.config.DefaultComponentConfigs.Client.CABundlePath)
        b.config.DefaultComponentConfigs.Client.CABundlePath reads = (none, m1, reads1) ∧
      initClientLoop env b.configPath b.config.ServiceConfigs m1 reads1
        = (none, (b.InitClientFn env rbfn reads).mapCertPools,
            (b.InitClientFn env rbfn reads).reads) ∧
      (b.InitClientFn env rbfn reads).buildClientFn =
        some (fun mc => createHTTPClient mc (b.InitClientFn env rbfn reads).mapCertPools rbfn) := by
  rcases h1 : loadCABundle env [] (resolveCAPath b.configPath
      b.config.DefaultComponentConfigs.Client.CABundlePath)
      b.config.DefaultComponentConfigs.Client.CABundlePath reads with ⟨e1, m1, reads1⟩
  cases e1 with
  | some err =>
    simp [defaultConfigBuilder.InitClientFn, defaultConfigBuilder.GetConfigPath, h1] at hok
  | none =>
    rcases h2 : initClientLoop env b.configPath b.config.ServiceConfigs m1 reads1
      with ⟨e2, m2, reads2⟩
    cases e2 with
    | some err =>
      simp [defaultConfigBuilder.InitClientFn, defaultConfigBuilder.GetConfigPath, h1, h2] at hok
    | none =>
      refine ⟨m1, reads1, rfl, ?_, ?_⟩
      · simp [defaultConfigBuilder.InitClientFn, defaultConfigBuilder.GetConfigPath, h1, h2]
      · simp [defaultConfigBuilder.InitClientFn, defaultConfigBuilder.GetConfigPath, h1, h2]

theorem createBaseClient_roots {π : Type} (mc : ClientConfig) (mapCertPools : bundleMap π)
    (h : mc.InsecureSkipVerify ≠ configFlag.True) :
    (createBaseClient mc mapCertPools).Transport.TLSClientConfig.RootCAs
      = GoMap.get? mapCertPools mc.CABundlePath := by
  cases hg : GoMap.get? mapCertPools mc.CABundlePath <;> simp [createBaseClient, h, hg]

/-- Counterexample to C20 as stated: `InitClientFn` succeeds for the config
file "foo/bar.json" with the default bundle path "cabundle.pem"; a client
built later by the returned function from a config with verification not
skipped and the non-empty bundle path "other.pem", which is neither the
default's nor a service's, gets no custom roots. -/
theorem InitClientFn_cache_coverage_counterexample :
    (exampleBundleBuilder.InitClientFn exampleCertEnv (fun _ base => base) []).err = none ∧
    ({ CABundlePath := "other.pem" } : ClientConfig).InsecureSkipVerify ≠ configFlag.True ∧
    ({ CABundlePath := "other.pem" } : ClientConfig).CABundlePath ≠ "" ∧
    ((exampleBundleBuilder.InitClientFn exampleCertEnv (fun _ base => base) []).buildClientFn.map
        (fun fn => (fn { CABundlePath := "other.pem" }).Transport.TLSClientConfig.RootCAs))
      = some none := by
  decide

/-- C20 (amended): whenever `InitClientFn` returns nil, the certificate cache
it built from the empty map has pairwise distinct keys, never holds the key
"", and its keys are exactly the non-empty `CABundlePath` of the default
client and the non-empty merged `CABundlePath` of the services. The returned
function builds every client as `rbfn(MaxRetries, baseClient)` against that
cache, and a client built with verification not skipped gets custom roots
exactly when its bundle path is one of those keys: so every client built from
the default or from a service's merged client config with a non-empty bundle
path gets a pool as its roots, and a client built from a config with any
other path gets none. For every call of `loadCABundle`, a failed load leaves
the cache as it was. -/
theorem InitClientFn_cache_coverage {π ρ : Type} (b : defaultConfigBuilder) (env : CertEnv π)
    (rbfn : Int → HTTPClient π → ρ) (reads : List String) :
    ((b.InitClientFn env rbfn reads).err = none →
      (((b.InitClientFn env rbfn reads).mapCertPools).map Prod.fst).Nodup ∧
      "" ∉ ((b.InitClientFn env rbfn reads).mapCertPools).map Prod.fst ∧
      (∀ k, k ∈ ((b.InitClientFn env rbfn reads).mapCertPools).map Prod.fst ↔
        k ≠ "" ∧ (k = b.config.DefaultComponentConfigs.Client.CABundlePath ∨
          ∃ e ∈ b.config.ServiceConfigs,
            e.2.MergedComponentConfigs.Client.CABundlePath = k)) ∧
      (b.InitClientFn env rbfn reads).buildClientFn =
        some (fun mc => createHTTPClient mc (b.InitClientFn env rbfn reads).mapCertPools rbfn) ∧
      (∀ mc : ClientConfig,
        createHTTPClient mc (b.InitClientFn env rbfn reads).mapCertPools rbfn =
          rbfn mc.MaxRetries
            (createBaseClient mc (b.InitClientFn env rbfn reads).mapCertPools)) ∧
      (∀ mc : ClientConfig, mc.InsecureSkipVerify ≠ configFlag.True →
        (createBaseClient mc (b.InitClientFn env rbfn reads).mapCertPools
          ).Transport.TLSClientConfig.RootCAs
          = GoMap.get? (b.InitClientFn env rbfn reads).mapCertPools mc.CABundlePath ∧
        (((createBaseClient mc (b.InitClientFn env rbfn reads).mapCertPools
            ).Transport.TLSClientConfig.RootCAs).isSome = true ↔
          mc.CABundlePath ≠ "" ∧
            (mc.CABundlePath = b.config.DefaultComponentConfigs.Client.CABundlePath ∨
              ∃ e ∈ b.config.ServiceConfigs,
                e.2.MergedComponentConfigs.Client.CABundlePath = mc.CABundlePath))) ∧
      (∀ mc : ClientConfig,
        (mc = b.config.DefaultComponentConfigs.Client ∨
          ∃ e ∈ b.config.ServiceConfigs, e.2.MergedComponentConfigs.Client = mc) →
        mc.InsecureSkipVerify ≠ configFlag.True → mc.CABundlePath ≠ "" →
        ∃ pool,
          (createBaseClient mc (b.InitClientFn env rbfn reads).mapCertPools
            ).Transport.TLSClientConfig.RootCAs = some pool)) ∧
    (∀ (cache : bundleMap π) (r p : String) (reads0 : List String),
      (loadCABundle env cache r p reads0).1 ≠ none →
        (loadCABundle env cache r p reads0).2.1 = cache) := by
  refine ⟨?_, fun cache r p reads0 h => loadCABundle_err_cache env cache r p reads0 h⟩
  intro hok
  obtain ⟨m1, reads1, h1, h2, hfn⟩ := InitClientFn_ok b env rbfn reads hok
  obtain ⟨hnd1, hk1⟩ := loadCABundle_ok_keys env [] m1 _ _ reads reads1 h1
  obtain ⟨hnd2, hk2⟩ := initClientLoop_ok_keys env b.configPath b.config.ServiceConfigs
    m1 _ reads1 _ h2
  have hkeys : ∀ k, k ∈ ((b.InitClientFn env rbfn reads).mapCertPools).map Prod.fst ↔
      k ≠ "" ∧ (k = b.config.DefaultComponentConfigs.Client.CABundlePath ∨
        ∃ e ∈ b.config.ServiceConfigs,
          e.2.MergedComponentConfigs.Client.CABundlePath = k) := by
    intro k
    rw [hk2, hk1]
    constructor
    · rintro ((hk | ⟨rfl, hne⟩) | ⟨hne, hex⟩)
      · simp at hk
      · exact ⟨hne, Or.inl rfl⟩
      · exact ⟨hne, Or.inr hex⟩
    · rintro ⟨hne, rfl | hex⟩
      · exact Or.inl (Or.inr ⟨rfl, hne⟩)
      · exact Or.inr ⟨hne, hex⟩
  refine ⟨hnd2 (hnd1 (by simp)), ?_, hkeys, hfn, fun mc => rfl, ?_, ?_⟩
  · intro hmem
    exact ((hkeys "").mp hmem).1 rfl
  · intro mc hskip
    refine ⟨createBaseClient_roots mc _ hskip, ?_⟩
    rw [createBaseClient_roots mc _ hskip, ← GoMap.mem_keys_iff, hkeys]
  · intro mc hmc hskip hpath
    have hmem : mc.CABundlePath ∈ ((b.InitClientFn env rbfn reads).mapCertPools).map Prod.fst := by
      rw [hkeys]
      refine ⟨hpath, ?_⟩
      rcases hmc with rfl | ⟨e, he, rfl⟩
      · exact Or.inl rfl
      · exact Or.inr ⟨e, he, rfl⟩
    have hsome := (GoMap.mem_keys_iff _ _).mp hmem
    rw [createBaseClient_roots mc _ hskip]
    exact Option.isSome_iff_exists.mp hsome

/-- Witness of C20 (amended): with config file "foo/bar.json" and default
bundle path "cabundle.pem", `InitClientFn` succeeds, the cache does not hold
the key "", and the default client gets a pool as its roots. -/
theorem InitClientFn_cache_coverage_witness :
    (exampleBundleBuilder.InitClientFn exampleCertEnv (fun _ _ => ()) []).err = none ∧
    "" ∉ ((exampleBundleBuilder.InitClientFn exampleCertEnv (fun _ _ => ()) []).mapCertPools).map
      Prod.fst ∧
    ∃ pool,
      (createBaseClient exampleBundleBuilder.config.DefaultComponentConfigs.Client
        (exampleBundleBuilder.InitClientFn exampleCertEnv (fun _ _ => ()) []).mapCertPools
        ).Transport.TLSClientConfig.RootCAs = some pool :=
  ⟨by decide,
    ((InitClientFn_cache_coverage exampleBundleBuilder exampleCertEnv (fun _ _ => ()) []).1
      (by decide)).2.1,
    ((InitClientFn_cache_coverage exampleBundleBuilder exampleCertEnv (fun _ _ => ()) []).1
      (by decide)).2.2.2.2.2.2 _ (Or.inl rfl) (by decide) (by decide)⟩

/-! ## `newConfig` -/

theorem mergeComponentConfigsForAllServices_fst (c : Config) :
    (mergeComponentConfigsForAllServices c).1 = none := by
  simp [mergeComponentConfigsForAllServices, mergeServicesLoop_eq]

theorem mergeComponentConfigsForAllServices_authKeys (c : Config) :
    List.Forall₂
      (fun (before after : String × ServiceConfig) =>
        after.1 = before.1 ∧ after.2.AuthRequired = before.2.AuthRequired ∧
        after.2.AuthKey = before.2.AuthKey)
      c.ServiceConfigs (mergeComponentConfigsForAllServices c).2.ServiceConfigs := by
  simp only [mergeComponentConfigsForAllServices, mergeServicesLoop_eq]
  generalize c.ServiceConfigs = m
  induction m with
  | nil => exact List.Forall₂.nil
  | cons e rest ih => exact List.Forall₂.cons ⟨rfl, rfl, rfl⟩ ih

theorem Read_ok (b b2 : defaultConfigBuilder) (env : LoadEnv) (configData : Reader)
    (hash hash1 : String) (h : b.Read env configData hash = (none, b2, hash1)) :
    ∃ data decoded, configData = .ok data ∧ env.Decode data = .ok decoded ∧
      b2 = { b with
        config := (mergeComponentConfigsForAllServices
          { decoded with Hash := env.Md5Hex data }).2 } := by
  cases configData with
  | error e => simp [defaultConfigBuilder.Read, buildInitialConfig] at h
  | ok data =>
    cases hdec : env.Decode data with
    | error e => simp [defaultConfigBuilder.Read, buildInitialConfig, hdec] at h
    | ok decoded =>
      refine ⟨data, decoded, rfl, hdec, ?_⟩
      rcases hm : mergeComponentConfigsForAllServices { decoded with Hash := env.Md5Hex data }
        with ⟨e, c1⟩
      have he : e = none := by
        have := mergeComponentConfigsForAllServices_fst { decoded with Hash := env.Md5Hex data }
        rw [hm] at this
        exact this
      subst he
      simp only [defaultConfigBuilder.Read, buildInitialConfig, hdec, hm] at h
      simp only [Prod.mk.injEq, true_and] at h
      exact h.1.symm

/-- Counterexample to C15 as stated: `newConfig` succeeds on a configuration
whose service "ABS" requires auth, and afterwards that service still has the
empty `AuthKey` of the file, although a key getter asked for it would return
"456": no key getter was invoked. -/
theorem newConfig_auth_keys_counterexample :
    (newConfig exampleLoadEnv exampleCertEnv {} (fun _ _ => ()) "foo/bar.json" "").errs = [] ∧
    ((newConfig exampleLoadEnv exampleCertEnv {} (fun _ _ => ()) "foo/bar.json" "").config.bind
        (fun c => GoMap.get? c.ServiceConfigs "ABS")).map
      (fun s => (s.AuthRequired, s.AuthKey, (exampleMockGetter.GetServiceKey () s ()).1))
      = some (true, "", ("456", none)) := by
  decide

/-- C15 (amended): the load pipeline of `newConfig` ends with client building.
For every world in which `newConfig` returns a configuration, the file was
opened, read and decoded, the returned configuration is the decoded one with
its hash after the merge of all services (state Merged), the error list is
empty, and the default client and one client per service have been built from
the merged client settings against one certificate cache (state
ClientsBuilt). It takes no key getter and invokes none: every service has the
`AuthRequired` and the `AuthKey` it had in the decoded file. -/
theorem newConfig_ends_with_clients {π ρ : Type} (loadEnv : LoadEnv) (certEnv : CertEnv π)
    (builder : defaultConfigBuilder) (rbfn : Int → HTTPClient π → ρ)
    (configPath hash : String) (c : Config)
    (hok : (newConfig loadEnv certEnv builder rbfn configPath hash).config = some c) :
    ∃ data decoded,
      loadEnv.Open configPath = .ok (.ok data) ∧
      loadEnv.Decode data = .ok decoded ∧
      c = (mergeComponentConfigsForAllServices
            { decoded with Hash := loadEnv.Md5Hex data }).2 ∧
      (newConfig loadEnv certEnv builder rbfn configPath hash).errs = [] ∧
      List.Forall₂
        (fun (before after : String × ServiceConfig) =>
          after.1 = before.1 ∧ after.2.AuthRequired = before.2.AuthRequired ∧
          after.2.AuthKey = before.2.AuthKey)
        decoded.ServiceConfigs c.ServiceConfigs ∧
      ∃ cache : bundleMap π,
        (newConfig loadEnv certEnv builder rbfn configPath hash).DefaultHTTPClient
          = some (createHTTPClient c.DefaultComponentConfigs.Client cache rbfn) ∧
        (newConfig loadEnv certEnv builder rbfn configPath hash).HTTPClients
          = c.ServiceConfigs.map (fun e =>
              (e.1, createHTTPClient e.2.MergedComponentConfigs.Client cache rbfn)) := by
  cases hopen : loadEnv.Open configPath with
  | error e => simp [newConfig, defaultConfigBuilder.Load, hopen] at hok
  | ok file =>
    have hload : builder.Load loadEnv configPath
        = (.ok file, { builder with configPath := configPath }) := by
      simp [defaultConfigBuilder.Load, hopen]
    rcases hread : defaultConfigBuilder.Read { builder with configPath := configPath } loadEnv
        file hash with ⟨err, b2, hash1⟩
    cases err with
    | some e => simp [newConfig, hload, hread] at hok
    | none =>
      obtain ⟨data, decoded, rfl, hdec, hb2⟩ := Read_ok _ _ _ _ _ _ hread
      cases herr : (b2.InitClientFn certEnv rbfn []).err with
      | some e => simp [newConfig, hload, hread, herr] at hok
      | none =>
        obtain ⟨m1, reads1, -, -, hfn⟩ := InitClientFn_ok b2 certEnv rbfn [] herr
        have hc : b2.config = c := by
          simpa [newConfig, hload, hread, herr, hfn] using hok
        have hcfg : c = (mergeComponentConfigsForAllServices
            { decoded with Hash := loadEnv.Md5Hex data }).2 := by
          rw [← hc, hb2]
        refine ⟨data, decoded, rfl, hdec, hcfg, ?_, ?_, (b2.InitClientFn certEnv rbfn []).mapCertPools,
          ?_, ?_⟩
        · simp [newConfig, hload, hread, herr, hfn]
        · rw [hcfg]
          exact mergeComponentConfigsForAllServices_authKeys _
        · simp [newConfig, hload, hread, herr, hfn, hc]
        · simp [newConfig, hload, hread, herr, hfn, hc]

/-- Witness of C15 (amended): in the example world `newConfig` returns the
merged configuration without errors, and "ABS" keeps the empty key of the
file. -/
theorem newConfig_ends_with_clients_witness :
    ∃ data decoded,
      exampleLoadEnv.Open "foo/bar.json" = .ok (.ok data) ∧
      exampleLoadEnv.Decode data = .ok decoded ∧
      (newConfig exampleLoadEnv exampleCertEnv {} (fun _ _ => ()) "foo/bar.json" "").errs = [] ∧
      List.Forall₂
        (fun (before after : String × ServiceConfig) =>
          after.1 = before.1 ∧ after.2.AuthRequired = before.2.AuthRequired ∧
          after.2.AuthKey = before.2.AuthKey)
        decoded.ServiceConfigs
        (mergeComponentConfigsForAllServices
          { exampleDecodedConfig with Hash := "b205d0e616926c8ede91e6c54377b857" }).2.ServiceConfigs := by
  obtain ⟨data, decoded, h1, h2, -, h4, h5, -⟩ :=
    newConfig_ends_with_clients exampleLoadEnv exampleCertEnv {} (fun _ _ => ())
      "foo/bar.json" ""
      (mergeComponentConfigsForAllServices
        { exampleDecodedConfig with Hash := "b205d0e616926c8ede91e6c54377b857" }).2
      (by decide)
  exact ⟨data, decoded, h1, h2, h4, h5⟩

end CodeNamor
